import Mathlib

/-!
Verification of the chat subsystem of the findland-africa backend
(`src/backend/app/api/v1/chat.py`) against its natural-language
specification.  The Python module is shallowly embedded: the database is an
explicit record of lists (one per ORM table), endpoint handlers are pure
functions threading that record, and the WebSocket connection manager is an
insertion-ordered association list mirroring a CPython `dict`.
-/

namespace FindlandChat

/-! ### Python string primitives

The room-identifier resolution in `chat.py` uses `str.startswith`,
`str.replace` and `str.split`.  They are modelled here over `List Char`
with Python semantics (`split` keeps empty segments, `replace` rewrites
every non-overlapping occurrence left to right).
-/

/-- Python `s.startswith(pre)`. -/
def pyStartsWith : List Char → List Char → Bool
  | [], _ => true
  | _ :: _, [] => false
  | p :: ps, c :: cs => p == c && pyStartsWith ps cs

/-- Accumulator loop for `pySplit`: builds the current segment in reverse. -/
def pySplitAux (sep : Char) : List Char → List Char → List (List Char)
  | [], acc => [acc.reverse]
  | c :: cs, acc =>
      if c == sep then acc.reverse :: pySplitAux sep cs []
      else pySplitAux sep cs (c :: acc)

/-- Python `s.split(sep)` for a single-character separator: splits at every
occurrence of `sep`, keeping empty segments. -/
def pySplit (sep : Char) (s : List Char) : List (List Char) :=
  pySplitAux sep s []

/-- Scanning loop of `pyReplace`, structurally recursive on a fuel that is
instantiated with the length of the scanned string (each step consumes at
least one character, so the fuel never runs out at that instantiation). -/
def pyReplaceAux (pat repl : List Char) : Nat → List Char → List Char
  | _, [] => []
  | 0, c :: cs => c :: cs
  | f + 1, c :: cs =>
      if pyStartsWith pat (c :: cs) then
        repl ++ pyReplaceAux pat repl f (cs.drop (pat.length - 1))
      else
        c :: pyReplaceAux pat repl f cs

/-- Python `s.replace(pat, repl)`: rewrite every non-overlapping occurrence
of `pat`, scanning left to right.  (The source only calls this with the
non-empty pattern `"property_"`.) -/
def pyReplace (pat repl s : List Char) : List Char :=
  pyReplaceAux pat repl s.length s

/-! ### The derived property-room identifier

`convert_property_room_id_to_uuid` feeds `"property_chat_" + property_id`
to `hashlib.md5(...).hexdigest()` and formats the 32 hex characters as a
UUID string.  `hashlib.md5` is an external standard-library collaborator;
it is modelled by a fixed deterministic 128-bit digest of the UTF-8 bytes
of the input.  No theorem below depends on the digest values themselves,
only on the digest being a deterministic function of its input.
-/

/-- UTF-8 encoding of one character, as byte values. -/
def utf8EncodeChar (c : Char) : List Nat :=
  let n := c.toNat
  if n < 0x80 then [n]
  else if n < 0x800 then [0xC0 + n / 0x40, 0x80 + n % 0x40]
  else if n < 0x10000 then
    [0xE0 + n / 0x1000, 0x80 + (n / 0x40) % 0x40, 0x80 + n % 0x40]
  else
    [0xF0 + n / 0x40000, 0x80 + (n / 0x1000) % 0x40,
     0x80 + (n / 0x40) % 0x40, 0x80 + n % 0x40]

/-- UTF-8 bytes of a character list. -/
def utf8Encode (s : List Char) : List Nat :=
  s.flatMap utf8EncodeChar

/-- Lower-case hexadecimal digit. -/
def hexDigit (n : Nat) : Char :=
  if n < 10 then Char.ofNat (48 + n) else Char.ofNat (87 + n)

/-- Big-endian fixed-width lower-case hexadecimal rendering of a number. -/
def natToHexPadded (n width : Nat) : List Char :=
  (List.range width).reverse.map (fun i => hexDigit ((n / 16 ^ i) % 16))

/-- Models the external `hashlib.md5(input).hexdigest()` call: a fixed
deterministic 128-bit digest of the input bytes, rendered as 32 lower-case
hex characters.  Only determinism is relied upon by the development. -/
def md5Hexdigest (input : List Char) : List Char :=
  natToHexPadded
    ((utf8Encode input).foldl
      (fun a b => (a * 16777619 + b) % (2 ^ 128)) 1469598103934665603)
    32

/-- `str(uuid.UUID(hex32))`: the 32 hex characters grouped 8-4-4-4-12 with
hyphens. -/
def uuidFormat (hex32 : List Char) : List Char :=
  hex32.take 8 ++ '-' :: ((hex32.drop 8).take 4) ++ '-' ::
    ((hex32.drop 12).take 4) ++ '-' :: ((hex32.drop 16).take 4) ++ '-' ::
    hex32.drop 20

/-- The durable room identifier derived from a property identifier:
`str(uuid.UUID(hashlib.md5(("property_chat_" + property_id).encode()).hexdigest()))`. -/
def derivedPropertyRoomId (property_id : List Char) : List Char :=
  uuidFormat (md5Hexdigest ("property_chat_".data ++ property_id))

/-- `convert_property_room_id_to_uuid` from `chat.py`: maps a
`property_`-prefixed or `temp_`-prefixed synthetic room identifier to the
derived durable identifier, and passes every other identifier through. -/
def convert_property_room_id_to_uuid (room_id : String) : String :=
  let s := room_id.data
  if pyStartsWith "property_".data s then
    String.mk (derivedPropertyRoomId (pyReplace "property_".data [] s))
  else if pyStartsWith "temp_".data s then
    match pySplit '_' s with
    | _ :: property_id :: _ :: _ =>
        String.mk (derivedPropertyRoomId property_id)
    | _ => room_id
  else room_id

/-! ### Data model

One record per ORM model (`app/models/chat.py`, plus the referenced `User`
and `Property` rows).  Identifiers are opaque strings; timestamps are a
`Nat` clock held in the database record, advanced on every commit.
Display-only floating-point fields (`agent_rating`) are omitted: no claim
touches them.
-/

/-- A row of the `users` table (only the fields read by the chat module). -/
structure UserRec where
  id : String
  name : String
deriving DecidableEq, Repr

/-- A row of the `properties` table (only the fields read by the chat
module). -/
structure PropertyRec where
  id : String
  title : String
  location : String
  agent_name : Option String
  owner_id : String
deriving DecidableEq, Repr

/-- A row of `chat_rooms`. -/
structure ChatRoomRec where
  id : String
  name : Option String
  room_type : String
  property_id : Option String
  escrow_id : Option String
  created_by : String
  is_active : Bool
  created_at : Nat
  updated_at : Option Nat
deriving DecidableEq, Repr

/-- A row of `chat_participants`. -/
structure ChatParticipantRec where
  id : String
  room_id : String
  user_id : String
  role : String
  joined_at : Nat
  last_read_at : Option Nat
  is_active : Bool
deriving DecidableEq, Repr

/-- A row of `chat_messages`. -/
structure ChatMessageRec where
  id : String
  room_id : String
  sender_id : String
  message_type : String
  content : String
  file_url : Option String
  file_name : Option String
  file_size : Option String
  reply_to_id : Option String
  is_edited : Bool
  is_deleted : Bool
  created_at : Nat
  updated_at : Option Nat
deriving DecidableEq, Repr

/-- The durable store: one list per table, a primary-key generator for the
`default=uuid.uuid4` columns, and the clock backing `func.now()` /
`datetime.utcnow()`. -/
structure DB where
  users : List UserRec
  properties : List PropertyRec
  escrows : List String
  rooms : List ChatRoomRec
  participants : List ChatParticipantRec
  messages : List ChatMessageRec
  nextId : Nat
  now : Nat
deriving DecidableEq, Repr

/-- Fresh primary key (stands in for `uuid.uuid4()`). -/
def genId (n : Nat) : String :=
  "uuid-" ++ toString n

/-- Error taxonomy of the module: the HTTP status categories raised by the
handlers.  Detail strings are elided; the claims only distinguish the
categories. -/
inductive ApiError where
  | badRequest
  | notFound
  | forbidden
  | internalError
deriving DecidableEq, Repr

/-! ### Request and response shapes (`app/schemas/chat.py`) -/

/-- `ChatRoomCreate`. -/
structure ChatRoomCreate where
  name : Option String
  room_type : String
  property_id : Option String
  escrow_id : Option String
  participant_ids : List String
deriving DecidableEq, Repr

/-- `ChatMessageSend`. -/
structure ChatMessageSend where
  content : String
  message_type : String
  file_url : Option String
  file_name : Option String
  file_size : Option String
  reply_to_id : Option String
deriving DecidableEq, Repr

/-- The serialized last message embedded in a room-details response. -/
structure LastMessageView where
  id : String
  room_id : String
  sender_id : String
  sender_name : String
  content : String
  message_type : String
  is_edited : Bool
  is_deleted : Bool
  created_at : Nat
  updated_at : Option Nat
deriving DecidableEq, Repr

/-- `ChatRoomWithDetails` (the float-valued `agent_rating` display field is
omitted; no claim touches it). -/
structure ChatRoomWithDetails where
  id : String
  name : Option String
  room_type : String
  property_id : Option String
  escrow_id : Option String
  created_by : String
  is_active : Bool
  created_at : Nat
  updated_at : Option Nat
  participants : List ChatParticipantRec
  message_count : Nat
  last_message : Option LastMessageView
  property_title : Option String
  property_location : Option String
  agent_name : Option String
deriving DecidableEq, Repr

/-- `ChatMessageWithDetails`. -/
structure ChatMessageWithDetails where
  id : String
  room_id : String
  sender_id : String
  sender_name : String
  content : String
  message_type : String
  file_url : Option String
  file_name : Option String
  file_size : Option String
  reply_to_id : Option String
  is_edited : Bool
  is_deleted : Bool
  created_at : Nat
  updated_at : Option Nat
  room_name : Option String
deriving DecidableEq, Repr

/-! ### Shared queries -/

/-- The `order_by(ChatMessage.created_at.desc())` query ordering: insertion
sort, descending by creation timestamp. -/
def insertByCreatedDesc (m : ChatMessageRec) :
    List ChatMessageRec → List ChatMessageRec
  | [] => [m]
  | x :: xs =>
      if x.created_at < m.created_at then m :: x :: xs
      else x :: insertByCreatedDesc m xs

/-- Sort messages newest-first. -/
def sortByCreatedDesc (l : List ChatMessageRec) : List ChatMessageRec :=
  l.foldr insertByCreatedDesc []

/-- Non-deleted messages of a room, newest first. -/
def roomMessagesDesc (db : DB) (rid : String) : List ChatMessageRec :=
  sortByCreatedDesc
    (db.messages.filter (fun m => m.room_id == rid && !m.is_deleted))

/-- The room's total message count used for summaries: rows of the room
with `is_deleted == False` (`get_chat_room_details`, chat.py lines 46-50). -/
def messageCount (db : DB) (rid : String) : Nat :=
  (db.messages.filter (fun m => m.room_id == rid && !m.is_deleted)).length

/-- Active participants of a room. -/
def activeParticipants (db : DB) (rid : String) : List ChatParticipantRec :=
  db.participants.filter (fun p => p.room_id == rid && p.is_active)

/-- The active participant row of a user in a room, if any. -/
def findActiveParticipant (db : DB) (rid uid : String) :
    Option ChatParticipantRec :=
  db.participants.find?
    (fun p => p.room_id == rid && p.user_id == uid && p.is_active)

/-- Sender display name: `sender.name if sender else "Unknown User"`. -/
def senderNameOr (db : DB) (uid fallback : String) : String :=
  match db.users.find? (fun u => u.id == uid) with
  | some u => u.name
  | none => fallback

/-- `get_chat_room_details`: active participants, non-deleted message
count, newest non-deleted message, and the linked property's display
fields. -/
def get_chat_room_details (room : ChatRoomRec) (db : DB) :
    ChatRoomWithDetails :=
  let last_message :=
    (roomMessagesDesc db room.id).head?.map (fun m =>
      { id := m.id, room_id := m.room_id, sender_id := m.sender_id
        sender_name := senderNameOr db m.sender_id "Unknown User"
        content := m.content, message_type := m.message_type
        is_edited := m.is_edited, is_deleted := m.is_deleted
        created_at := m.created_at, updated_at := m.updated_at })
  let prop : Option PropertyRec :=
    match room.property_id with
    | some pid => db.properties.find? (fun p => p.id == pid)
    | none => none
  { id := room.id, name := room.name, room_type := room.room_type
    property_id := room.property_id, escrow_id := room.escrow_id
    created_by := room.created_by, is_active := room.is_active
    created_at := room.created_at, updated_at := room.updated_at
    participants := activeParticipants db room.id
    message_count := messageCount db room.id
    last_message := last_message
    property_title := prop.map (·.title)
    property_location := prop.map (·.location)
    agent_name := prop.bind (·.agent_name) }

/-! ### Presence and fan-out gateway (`ConnectionManager`)

`active_connections` is a CPython `dict[str, WebSocket]`: an
insertion-ordered association list.  A live socket is abstracted to
whether its `send_text` coroutine raises.  `room_connections` maps a room
to its subscriber set.
-/

/-- A live WebSocket channel, abstracted to its send behaviour:
`sendFails = true` means `send_text` raises for this channel. -/
structure Channel where
  sendFails : Bool
deriving DecidableEq, Repr

/-- Volatile gateway state. -/
structure ConnectionManager where
  active_connections : List (String × Channel)
  room_connections : List (String × List String)
deriving DecidableEq, Repr

/-- A successfully delivered live event: recipient, envelope `type`
discriminator, the message content carried in `data`, and the room scope
(if any). -/
structure Event where
  recipient : String
  etype : String
  content : String
  room_id : Option String
deriving DecidableEq, Repr

/-- Errors escaping the gateway (uncaught Python exceptions). -/
def dictMutationError : String :=
  "RuntimeError: dictionary changed size during iteration"

/-- `ConnectionManager.broadcast_to_all`, chat.py lines 162-171.

The Python loop iterates `self.active_connections.items()` and, inside a
`try/except`, deletes a failing recipient from `self.active_connections`.
CPython dict iterators compare the dict size against the size recorded at
iterator creation on every `__next__` call (including the final one) and
raise `RuntimeError` when it changed; that check is modelled by the
`modified` flag.  Arguments: remaining iteration entries, current dict
contents, the flag, then the payload data.  Returns the uncaught
exception (if any), the dict contents after the loop, and the delivered
events in order. -/
def broadcastToAllGo (etype content : String) (rid : Option String)
    (exclude : Option String) :
    List (String × Channel) → List (String × Channel) → Bool →
    Option String × List (String × Channel) × List Event
  | [], conns, modified =>
      (if modified then some dictMutationError else none, conns, [])
  | (u, ch) :: rest, conns, modified =>
      if modified then (some dictMutationError, conns, [])
      else if some u == exclude then
        broadcastToAllGo etype content rid exclude rest conns modified
      else if ch.sendFails then
        broadcastToAllGo etype content rid exclude rest
          (conns.filter (fun e => e.1 != u)) true
      else
        ((broadcastToAllGo etype content rid exclude rest conns modified).1,
         (broadcastToAllGo etype content rid exclude rest conns
            modified).2.1,
         ⟨u, etype, content, rid⟩ ::
           (broadcastToAllGo etype content rid exclude rest conns
              modified).2.2)

/-- `broadcast_to_all(message, exclude_user)`: best-effort fan-out to every
connected user with the CPython iteration semantics above. -/
def broadcast_to_all (cm : ConnectionManager) (etype content : String)
    (rid : Option String) (exclude : Option String) :
    Option String × ConnectionManager × List Event :=
  let res :=
    broadcastToAllGo etype content rid exclude
      cm.active_connections cm.active_connections false
  (res.1, { cm with active_connections := res.2.1 }, res.2.2)

/-- Send loop of `broadcast_to_room`: delivery to the subscribed users in
order; a raising channel aborts the loop with an uncaught exception (there
is no `try/except` in `broadcast_to_room`). -/
def broadcastToRoomGo (cm : ConnectionManager) (etype content : String)
    (rid : Option String) (exclude : Option String) :
    List String → Option String × List Event
  | [] => (none, [])
  | u :: rest =>
      if some u == exclude then
        broadcastToRoomGo cm etype content rid exclude rest
      else
        match cm.active_connections.find? (fun e => e.1 == u) with
        | none => broadcastToRoomGo cm etype content rid exclude rest
        | some e =>
            if e.2.sendFails then (some "WebSocket send failed", [])
            else
              ((broadcastToRoomGo cm etype content rid exclude rest).1,
               ⟨u, etype, content, rid⟩ ::
                 (broadcastToRoomGo cm etype content rid exclude rest).2)

/-- `broadcast_to_room(message, room_id, exclude_user)`, chat.py lines
139-143. -/
def broadcast_to_room (cm : ConnectionManager) (etype content : String)
    (room_id : String) (exclude : Option String) :
    Option String × List Event :=
  match cm.room_connections.find? (fun e => e.1 == room_id) with
  | none => (none, [])
  | some (_, users) =>
      broadcastToRoomGo cm etype content (some room_id) exclude users

/-- `send_personal_message(message, user_id)`: silently no-ops when the
user has no live channel; an uncaught send failure propagates. -/
def send_personal_message (cm : ConnectionManager) (etype content : String)
    (rid : Option String) (u : String) : Option String × List Event :=
  match cm.active_connections.find? (fun e => e.1 == u) with
  | none => (none, [])
  | some (_, ch) =>
      if ch.sendFails then (some "WebSocket send failed", [])
      else (none, [⟨u, etype, content, rid⟩])

/-! ### `POST /chat/rooms` — `create_chat_room`

Each handler returns its HTTP result together with the database (and,
where the gateway is used, the connection-manager state and the delivered
events).  A raised `HTTPException` or uncaught Python exception is the
`.error` case; the database component always reflects the commits that
happened before the exception.
-/

/-- Participant-insertion loop of `create_chat_room` (lines 267-290):
skips identifiers that do not name an existing user, assigns `admin` to
the creator and `member` to everyone else, committing row by row. -/
def createParticipantsLoop (rid cuid : String) (db : DB) (ids : List String) :
    DB × List ChatParticipantRec :=
  match ids with
  | [] => (db, [])
  | uid :: rest =>
      -- malformed-UUID skip elided: identifiers are opaque strings
      match db.users.find? (fun u => u.id == uid) with
      | none => createParticipantsLoop rid cuid db rest
      | some _ =>
          let p : ChatParticipantRec :=
            { id := genId db.nextId, room_id := rid, user_id := uid
              role := if uid == cuid then "admin" else "member"
              joined_at := db.now, last_read_at := none, is_active := true }
          let db1 := { db with participants := db.participants ++ [p]
                               nextId := db.nextId + 1, now := db.now + 1 }
          let res := createParticipantsLoop rid cuid db1 rest
          (res.1, p :: res.2)

/-- Room-creation tail of `create_chat_room` (lines 251-348): insert the
room, run the participant loop, add the creator as `admin` when absent
from `participant_ids`, broadcast `room_created` to every connected user,
and answer with the assembled room dictionary. -/
def create_chat_room_fresh (room_data : ChatRoomCreate)
    (pid eid : Option String) (current_user : UserRec) (db : DB)
    (cm : ConnectionManager) :
    Except ApiError ChatRoomWithDetails × DB × ConnectionManager ×
      List Event :=
  let room : ChatRoomRec :=
    { id := genId db.nextId, name := room_data.name
      room_type := room_data.room_type, property_id := pid
      escrow_id := eid, created_by := current_user.id
      is_active := true, created_at := db.now, updated_at := none }
  let db1 := { db with rooms := db.rooms ++ [room]
                       nextId := db.nextId + 1, now := db.now + 1 }
  let lp :=
    createParticipantsLoop room.id current_user.id db1
      room_data.participant_ids
  let db2 := lp.1
  let cp : ChatParticipantRec :=
    { id := genId db2.nextId, room_id := room.id
      user_id := current_user.id, role := "admin"
      joined_at := db2.now, last_read_at := none, is_active := true }
  let db3 :=
    if room_data.participant_ids.contains current_user.id then db2
    else
      { db2 with participants := db2.participants ++ [cp]
                 nextId := db2.nextId + 1, now := db2.now + 1 }
  let allPs :=
    if room_data.participant_ids.contains current_user.id then lp.2
    else lp.2 ++ [cp]
  let bres := broadcast_to_all cm "room_created" "" (some room.id) none
  (match bres.1 with
   | some _ => .error .internalError
   | none =>
       .ok { id := room.id, name := room.name, room_type := room.room_type
             property_id := room.property_id, escrow_id := room.escrow_id
             created_by := room.created_by, is_active := room.is_active
             created_at := room.created_at, updated_at := room.updated_at
             participants := allPs, message_count := 0, last_message := none
             property_title := none, property_location := none
             agent_name := none },
   db3, bres.2.1, bres.2.2)

/-- Escrow-linkage validation of `create_chat_room` (lines 233-249). -/
def create_chat_room_escrow (room_data : ChatRoomCreate)
    (pid : Option String) (current_user : UserRec) (db : DB)
    (cm : ConnectionManager) :
    Except ApiError ChatRoomWithDetails × DB × ConnectionManager ×
      List Event :=
  match room_data.escrow_id with
  | none => create_chat_room_fresh room_data pid none current_user db cm
  | some eid =>
      if db.escrows.contains eid then
        create_chat_room_fresh room_data pid (some eid) current_user db cm
      else (.error .notFound, db, cm, [])

/-- `create_chat_room` (lines 175-360).  For a request carrying a
`property_id`: validate the property, then resolve a duplicate — an
existing *active* room for that property is returned, with the caller
joined as a `member` participant when not already active in it.
Otherwise fall through to escrow validation and fresh creation. -/
def create_chat_room (room_data : ChatRoomCreate) (current_user : UserRec)
    (db : DB) (cm : ConnectionManager) :
    Except ApiError ChatRoomWithDetails × DB × ConnectionManager ×
      List Event :=
  match room_data.property_id with
  | none => create_chat_room_escrow room_data none current_user db cm
  | some pid =>
      -- malformed-UUID rejection (400) elided: identifiers are opaque
      if (db.properties.find? (fun p => p.id == pid)).isNone then
        (.error .notFound, db, cm, [])
      else
        match db.rooms.find?
            (fun r => r.property_id == some pid && r.is_active) with
        | some existing_room =>
            match findActiveParticipant db existing_room.id
                current_user.id with
            | some _ =>
                (.ok (get_chat_room_details existing_room db), db, cm, [])
            | none =>
                let p : ChatParticipantRec :=
                  { id := genId db.nextId, room_id := existing_room.id
                    user_id := current_user.id, role := "member"
                    joined_at := db.now, last_read_at := none
                    is_active := true }
                let db1 :=
                  { db with participants := db.participants ++ [p]
                            nextId := db.nextId + 1, now := db.now + 1 }
                (.ok (get_chat_room_details existing_room db1), db1, cm, [])
        | none => create_chat_room_escrow room_data (some pid)
            current_user db cm

/-! ### `GET /chat/rooms/room_id` — `get_chat_room` -/

/-- Backfill of a missing `property_id` on a room reached through a
synthetic identifier (lines 474-490). -/
def backfillPropertyId (room : ChatRoomRec) (pid : String) (db : DB) :
    ChatRoomRec × DB :=
  match room.property_id with
  | some _ => (room, db)
  | none =>
      let room1 :=
        { room with property_id := some pid, updated_at := some db.now }
      (room1,
       { db with
         rooms := db.rooms.map (fun r => if r.id == room.id then room1 else r)
         now := db.now + 1 })

/-- Authorization tail of `get_chat_room` (lines 594-610): any
authenticated user may read a `property`-kind room; otherwise the caller
must be an active participant (looked up under the converted
identifier). -/
def get_chat_room_checked (actual : String) (room : ChatRoomRec)
    (u : UserRec) (db : DB) :
    Except ApiError ChatRoomWithDetails × DB :=
  if room.room_type == "property" then
    (.ok (get_chat_room_details room db), db)
  else
    match findActiveParticipant db actual u.id with
    | none => (.error .forbidden, db)
    | some _ => (.ok (get_chat_room_details room db), db)

/-- Synthetic-identifier resolution of `get_chat_room` when no room has
the derived identifier (lines 492-586, the shared body of the
`property_` and `temp_` branches): reuse any `property`-kind room of the
property, else validate the property and create the room, adding the
requesting user as a `member` participant. -/
def get_chat_room_resolve_property (actual pid : String) (u : UserRec)
    (db : DB) : Except ApiError (ChatRoomRec × DB) :=
  match db.rooms.find?
      (fun r => r.property_id == some pid && r.room_type == "property") with
  | some existing_room => .ok (existing_room, db)
  | none =>
      match db.properties.find? (fun p => p.id == pid) with
      | none => .error .notFound
      | some property_obj =>
          let room : ChatRoomRec :=
            { id := actual
              name := some ("Chat about " ++ property_obj.title)
              room_type := "property", property_id := some pid
              escrow_id := none, created_by := u.id, is_active := true
              created_at := db.now, updated_at := none }
          let db1 := { db with rooms := db.rooms ++ [room]
                               now := db.now + 1 }
          let participant : ChatParticipantRec :=
            { id := genId db1.nextId, room_id := room.id, user_id := u.id
              role := "member", joined_at := db1.now, last_read_at := none
              is_active := true }
          let db2 :=
            { db1 with participants := db1.participants ++ [participant]
                       nextId := db1.nextId + 1, now := db1.now + 1 }
          .ok (room, db2)

/-- `get_chat_room` (lines 462-610). -/
def get_chat_room (room_id : String) (u : UserRec) (db : DB) :
    Except ApiError ChatRoomWithDetails × DB :=
  let actual := convert_property_room_id_to_uuid room_id
  let s := room_id.data
  match db.rooms.find? (fun r => r.id == actual) with
  | some room =>
      if pyStartsWith "property_".data s then
        let bf :=
          backfillPropertyId room
            (String.mk (pyReplace "property_".data [] s)) db
        get_chat_room_checked actual bf.1 u bf.2
      else if pyStartsWith "temp_".data s then
        match pySplit '_' s with
        | _ :: pid :: _ :: _ =>
            let bf := backfillPropertyId room (String.mk pid) db
            get_chat_room_checked actual bf.1 u bf.2
        | _ => get_chat_room_checked actual room u db
      else get_chat_room_checked actual room u db
  | none =>
      if pyStartsWith "property_".data s then
        match get_chat_room_resolve_property actual
            (String.mk (pyReplace "property_".data [] s)) u db with
        | .error e => (.error e, db)
        | .ok (room, db1) => get_chat_room_checked actual room u db1
      else if pyStartsWith "temp_".data s then
        match pySplit '_' s with
        | _ :: pid :: _ :: _ =>
            match get_chat_room_resolve_property actual (String.mk pid)
                u db with
            | .error e => (.error e, db)
            | .ok (room, db1) => get_chat_room_checked actual room u db1
        | _ =>
            -- Python leaves `room = None` here and crashes on
            -- `room.room_type` (AttributeError, a 500)
            (.error .internalError, db)
      else (.error .notFound, db)

/-! ### `GET /chat/rooms/room_id/messages` — `get_chat_messages` -/

/-- Serialized message row with sender and room display names
(lines 774-801 and 1111-1136). -/
def mkMessageView (db : DB) (m : ChatMessageRec) : ChatMessageWithDetails :=
  { id := m.id, room_id := m.room_id, sender_id := m.sender_id
    sender_name := senderNameOr db m.sender_id "Unknown"
    content := m.content, message_type := m.message_type
    file_url := m.file_url, file_name := m.file_name
    file_size := m.file_size, reply_to_id := m.reply_to_id
    is_edited := m.is_edited, is_deleted := m.is_deleted
    created_at := m.created_at, updated_at := m.updated_at
    room_name := (db.rooms.find? (fun r => r.id == m.room_id)).bind
      (·.name) }

/-- `get_chat_messages` (lines 739-803): requires the caller to be an
active participant (for every room kind), pages the non-deleted messages
newest first, and advances the caller's read cursor as a side effect. -/
def get_chat_messages (room_id : String) (u : UserRec) (skip limit : Nat)
    (db : DB) : Except ApiError (List ChatMessageWithDetails) × DB :=
  let actual := convert_property_room_id_to_uuid room_id
  match findActiveParticipant db actual u.id with
  | none => (.error .forbidden, db)
  | some participant =>
      (.ok ((((roomMessagesDesc db actual).drop skip).take limit).map
          (mkMessageView db)),
       { db with
         participants := db.participants.map (fun p =>
           if p.id == participant.id then
             { p with last_read_at := some db.now }
           else p)
         now := db.now + 1 })

/-! ### `POST /chat/rooms/room_id/messages` — `send_message` -/

/-- Synthetic-identifier resolution of `send_message` when no room has the
derived identifier (lines 837-971): reuse any `property`-kind room of the
property, else validate the property, create the room, broadcast
`room_created` to every connected user (an uncaught send failure aborts
the request here, before the participant insert), then add the requesting
user as a `member` participant. -/
def send_message_resolve_property (actual pid : String) (u : UserRec)
    (db : DB) (cm : ConnectionManager) :
    Except ApiError ChatRoomRec × DB × ConnectionManager × List Event :=
  match db.rooms.find?
      (fun r => r.property_id == some pid && r.room_type == "property") with
  | some existing_room => (.ok existing_room, db, cm, [])
  | none =>
      match db.properties.find? (fun p => p.id == pid) with
      | none => (.error .notFound, db, cm, [])
      | some property_obj =>
          let room : ChatRoomRec :=
            { id := actual
              name := some ("Chat about " ++ property_obj.title)
              room_type := "property", property_id := some pid
              escrow_id := none, created_by := u.id, is_active := true
              created_at := db.now, updated_at := none }
          let db1 := { db with rooms := db.rooms ++ [room]
                               now := db.now + 1 }
          let bres :=
            broadcast_to_all cm "room_created" "" (some room.id) none
          match bres.1 with
          | some _ => (.error .internalError, db1, bres.2.1, bres.2.2)
          | none =>
              let participant : ChatParticipantRec :=
                { id := genId db1.nextId, room_id := room.id
                  user_id := u.id, role := "member", joined_at := db1.now
                  last_read_at := none, is_active := true }
              let db2 :=
                { db1 with
                  participants := db1.participants ++ [participant]
                  nextId := db1.nextId + 1, now := db1.now + 1 }
              (.ok room, db2, bres.2.1, bres.2.2)

/-- Room resolution of `send_message` (lines 813-977), mirroring
`get_chat_room`: direct lookup under the converted identifier, with
`property_id` backfill for synthetic identifiers and creation on first
use. -/
def send_message_resolve (room_id : String) (u : UserRec) (db : DB)
    (cm : ConnectionManager) :
    Except ApiError ChatRoomRec × DB × ConnectionManager × List Event :=
  let actual := convert_property_room_id_to_uuid room_id
  let s := room_id.data
  match db.rooms.find? (fun r => r.id == actual) with
  | some room =>
      if pyStartsWith "property_".data s then
        let bf :=
          backfillPropertyId room
            (String.mk (pyReplace "property_".data [] s)) db
        (.ok bf.1, bf.2, cm, [])
      else if pyStartsWith "temp_".data s then
        match pySplit '_' s with
        | _ :: pid :: _ :: _ =>
            let bf := backfillPropertyId room (String.mk pid) db
            (.ok bf.1, bf.2, cm, [])
        | _ => (.ok room, db, cm, [])
      else (.ok room, db, cm, [])
  | none =>
      if pyStartsWith "property_".data s then
        send_message_resolve_property actual
          (String.mk (pyReplace "property_".data [] s)) u db cm
      else if pyStartsWith "temp_".data s then
        match pySplit '_' s with
        | _ :: pid :: _ :: _ =>
            send_message_resolve_property actual (String.mk pid) u db cm
        | _ =>
            -- Python leaves `room = None` and crashes on `room.room_type`
            (.error .internalError, db, cm, [])
      else (.error .notFound, db, cm, [])

/-- Per-participant notification loop of `send_message` (lines
1044-1061): `send_personal_message` to every active participant other
than the sender; an uncaught send failure aborts the loop. -/
def notifyLoop (cm : ConnectionManager) (room_id content : String) :
    List String → Option String × List Event
  | [] => (none, [])
  | uid :: rest =>
      match (send_personal_message cm "notification" content
          (some room_id) uid).1 with
      | some err =>
          (some err,
           (send_personal_message cm "notification" content
              (some room_id) uid).2)
      | none =>
          ((notifyLoop cm room_id content rest).1,
           (send_personal_message cm "notification" content
              (some room_id) uid).2 ++
             (notifyLoop cm room_id content rest).2)

/-- The durable row inserted by `send_message` (lines 994-1004). -/
def newMessageRow (actual : String) (msg : ChatMessageSend) (u : UserRec)
    (db : DB) : ChatMessageRec :=
  { id := genId db.nextId, room_id := actual, sender_id := u.id
    message_type := msg.message_type, content := msg.content
    file_url := msg.file_url, file_name := msg.file_name
    file_size := msg.file_size, reply_to_id := msg.reply_to_id
    is_edited := false, is_deleted := false
    created_at := db.now, updated_at := none }

/-- Durable write and fan-out tail of `send_message` (lines 994-1068):
the message row is committed first; only then are the room broadcast, the
global broadcast and the per-participant notifications attempted.  The
notification body is the content truncated to 50 characters. -/
def send_message_deliver (actual room_id : String) (msg : ChatMessageSend)
    (u : UserRec) (db : DB) (cm : ConnectionManager) (evs0 : List Event) :
    Except ApiError ChatMessageWithDetails × DB × ConnectionManager ×
      List Event :=
  let db_message := newMessageRow actual msg u db
  let db1 := { db with messages := db.messages ++ [db_message]
                       nextId := db.nextId + 1, now := db.now + 1 }
  let room2 := db1.rooms.find? (fun r => r.id == actual)
  let rres := broadcast_to_room cm "message" msg.content actual (some u.id)
  match rres.1 with
  | some _ => (.error .internalError, db1, cm, evs0 ++ rres.2)
  | none =>
      let ares :=
        broadcast_to_all cm "message" msg.content (some actual) (some u.id)
      match ares.1 with
      | some _ =>
          (.error .internalError, db1, ares.2.1, evs0 ++ rres.2 ++ ares.2.2)
      | none =>
          let parts := db1.participants.filter (fun p =>
            p.room_id == actual && p.is_active && p.user_id != u.id)
          let notifBody :=
            if msg.content.length > 50 then
              String.mk (msg.content.data.take 50) ++ "..."
            else msg.content
          let nres :=
            notifyLoop ares.2.1 room_id notifBody (parts.map (·.user_id))
          match nres.1 with
          | some _ =>
              (.error .internalError, db1, ares.2.1,
               evs0 ++ rres.2 ++ ares.2.2 ++ nres.2)
          | none =>
              (.ok { id := db_message.id, room_id := db_message.room_id
                     sender_id := db_message.sender_id, sender_name := u.name
                     content := db_message.content
                     message_type := db_message.message_type
                     file_url := db_message.file_url
                     file_name := db_message.file_name
                     file_size := db_message.file_size
                     reply_to_id := db_message.reply_to_id
                     is_edited := db_message.is_edited
                     is_deleted := db_message.is_deleted
                     created_at := db_message.created_at
                     updated_at := db_message.updated_at
                     room_name := room2.bind (·.name) },
               db1, ares.2.1, evs0 ++ rres.2 ++ ares.2.2 ++ nres.2)

/-- `send_message` (lines 805-1068): resolve the room, authorize (any
authenticated user for a `property`-kind room, active participant
otherwise), then commit and fan out. -/
def send_message (room_id : String) (msg : ChatMessageSend) (u : UserRec)
    (db : DB) (cm : ConnectionManager) :
    Except ApiError ChatMessageWithDetails × DB × ConnectionManager ×
      List Event :=
  let actual := convert_property_room_id_to_uuid room_id
  match send_message_resolve room_id u db cm with
  | (.error e, db1, cm1, evs) => (.error e, db1, cm1, evs)
  | (.ok room, db1, cm1, evs) =>
      if room.room_type == "property" then
        send_message_deliver actual room_id msg u db1 cm1 evs
      else
        match findActiveParticipant db1 actual u.id with
        | none => (.error .forbidden, db1, cm1, evs)
        | some _ => send_message_deliver actual room_id msg u db1 cm1 evs

/-! ### `PUT`/`DELETE` on a message — `edit_message`, `delete_message` -/

/-- The row predicate shared by `edit_message` and `delete_message`
(lines 1090-1095 and 1157-1162): the message, in this room, sent by the
caller, not yet deleted. -/
def ownEditablePred (room_id message_id uid : String)
    (m : ChatMessageRec) : Bool :=
  m.id == message_id && m.room_id == room_id && m.sender_id == uid &&
    !m.is_deleted

/-- `edit_message` (lines 1070-1136): 404 unless the caller is the sender
of a not-yet-deleted message in the room; on success replaces the content,
sets the edited flag and refreshes the update timestamp.  (The
malformed-UUID 400 is elided: identifiers are opaque strings.) -/
def edit_message (room_id message_id new_content : String) (u : UserRec)
    (db : DB) : Except ApiError ChatMessageWithDetails × DB :=
  match db.messages.find? (ownEditablePred room_id message_id u.id) with
  | none => (.error .notFound, db)
  | some m =>
      let m1 := { m with content := new_content, is_edited := true
                         updated_at := some db.now }
      let db1 :=
        { db with
          messages := db.messages.map (fun x =>
            if x.id == m.id then
              { x with content := new_content, is_edited := true
                       updated_at := some db.now }
            else x)
          now := db.now + 1 }
      (.ok (mkMessageView db1 m1), db1)

/-- `delete_message` (lines 1138-1177): 404 unless the caller is the
sender of a not-yet-deleted message in the room; on success soft-deletes
the row, replacing the content with the fixed tombstone string. -/
def delete_message (room_id message_id : String) (u : UserRec) (db : DB) :
    Except ApiError String × DB :=
  match db.messages.find? (ownEditablePred room_id message_id u.id) with
  | none => (.error .notFound, db)
  | some m =>
      let db1 :=
        { db with
          messages := db.messages.map (fun x =>
            if x.id == m.id then
              { x with is_deleted := true
                       content := "This message was deleted"
                       updated_at := some db.now }
            else x)
          now := db.now + 1 }
      (.ok "Message deleted successfully", db1)

/-! ### Lemmas about the Python string primitives -/

theorem pyStartsWith_append (pre rest : List Char) :
    pyStartsWith pre (pre ++ rest) = true := by
  induction pre with
  | nil => rfl
  | cons p ps ih => simp [pyStartsWith, ih]

theorem mem_of_pyStartsWith {pat s : List Char} {c : Char}
    (h : pyStartsWith pat s = true) (hc : c ∈ pat) : c ∈ s := by
  induction pat generalizing s with
  | nil => cases hc
  | cons p ps ih =>
      cases s with
      | nil => simp [pyStartsWith] at h
      | cons x xs =>
          simp only [pyStartsWith, Bool.and_eq_true, beq_iff_eq] at h
          rcases List.mem_cons.mp hc with hEq | hc
          · simp [hEq, h.1]
          · exact List.mem_cons_of_mem _ (ih h.2 hc)

theorem pyReplaceAux_nil (pat repl : List Char) (f : Nat) :
    pyReplaceAux pat repl f [] = [] := by
  cases f <;> rfl

theorem pyReplaceAux_fuel (pat repl : List Char) :
    ∀ (f : Nat) (s : List Char) (g : Nat), s.length ≤ f → s.length ≤ g →
      pyReplaceAux pat repl f s = pyReplaceAux pat repl g s := by
  intro f
  induction f with
  | zero =>
      intro s g h1 _
      have hs : s = [] := List.eq_nil_of_length_eq_zero (Nat.le_zero.mp h1)
      subst hs
      rw [pyReplaceAux_nil, pyReplaceAux_nil]
  | succ f ih =>
      intro s g h1 h2
      cases s with
      | nil => rw [pyReplaceAux_nil, pyReplaceAux_nil]
      | cons c cs =>
          cases g with
          | zero => simp at h2
          | succ g' =>
              have hcf : cs.length ≤ f := by
                simp only [List.length_cons] at h1; omega
              have hcg : cs.length ≤ g' := by
                simp only [List.length_cons] at h2; omega
              have hdf : (cs.drop (pat.length - 1)).length ≤ f := by
                simp only [List.length_drop]; omega
              have hdg : (cs.drop (pat.length - 1)).length ≤ g' := by
                simp only [List.length_drop]; omega
              simp only [pyReplaceAux]
              by_cases h : pyStartsWith pat (c :: cs) = true
              · rw [if_pos h, if_pos h, ih _ _ hdf hdg]
              · rw [if_neg h, if_neg h, ih _ _ hcf hcg]

theorem pyReplace_of_not_mem {pat s : List Char} {c : Char} (repl : List Char)
    (hc : c ∈ pat) (hs : c ∉ s) : pyReplace pat repl s = s := by
  unfold pyReplace
  suffices h : ∀ (f : Nat) (t : List Char), c ∉ t →
      pyReplaceAux pat repl f t = t from h _ _ hs
  intro f
  induction f with
  | zero => intro t _; cases t <;> rfl
  | succ f ih =>
      intro t ht
      cases t with
      | nil => rfl
      | cons x xs =>
          have hst : pyStartsWith pat (x :: xs) = false := by
            cases h : pyStartsWith pat (x :: xs) with
            | false => rfl
            | true => exact absurd (mem_of_pyStartsWith h hc) ht
          simp only [pyReplaceAux, hst, Bool.false_eq_true, if_false]
          rw [ih xs (fun h => ht (List.mem_cons_of_mem _ h))]

theorem pyReplace_cons_prefix (p : Char) (ps repl rest : List Char) :
    pyReplace (p :: ps) repl (p :: (ps ++ rest)) =
      repl ++ pyReplace (p :: ps) repl rest := by
  unfold pyReplace
  have hst : pyStartsWith (p :: ps) (p :: (ps ++ rest)) = true := by
    have := pyStartsWith_append (p :: ps) rest
    simpa using this
  have hlen : (p :: (ps ++ rest)).length = (ps.length + rest.length) + 1 :=
    by simp
  rw [hlen]
  simp only [pyReplaceAux, hst, if_true, List.length_cons,
    Nat.add_sub_cancel, List.drop_left]
  congr 1
  exact pyReplaceAux_fuel (p :: ps) repl (ps.length + rest.length) rest
    rest.length (by omega) le_rfl

theorem pySplitAux_seg (sep : Char) (l1 l2 acc : List Char)
    (h : sep ∉ l1) :
    pySplitAux sep (l1 ++ sep :: l2) acc =
      (acc.reverse ++ l1) :: pySplitAux sep l2 [] := by
  induction l1 generalizing acc with
  | nil => simp [pySplitAux]
  | cons c cs ih =>
      have hcs : sep ∉ cs := fun hm => h (List.mem_cons_of_mem _ hm)
      have hc : ¬(c == sep) = true := by
        simp only [beq_iff_eq]
        intro hEq
        exact h (hEq ▸ List.mem_cons_self c cs)
      simp only [List.cons_append, pySplitAux, hc, if_false,
        Bool.false_eq_true]
      show pySplitAux sep (cs ++ sep :: l2) (c :: acc) = _
      rw [ih _ hcs]
      simp

theorem pySplitAux_ne_nil (sep : Char) (l acc : List Char) :
    ∃ q qs, pySplitAux sep l acc = q :: qs := by
  induction l generalizing acc with
  | nil => exact ⟨acc.reverse, [], rfl⟩
  | cons c cs ih =>
      by_cases hc : (c == sep) = true
      · exact ⟨acc.reverse, pySplitAux sep cs [], by simp [pySplitAux, hc]⟩
      · obtain ⟨q, qs, hq⟩ := ih (c :: acc)
        refine ⟨q, qs, ?_⟩
        simp only [pySplitAux, hc, if_false, Bool.false_eq_true]
        exact hq

/-- C7: the two synthetic-identifier forms resolve to the same derived
durable room identifier.  A (valid) property identifier contains no
underscore — identifiers are UUID strings — which is what makes the
`temp_{property_id}_{timestamp}` split recover the identifier exactly. -/
theorem convert_room_id_timestamp_independent (P ts : String)
    (h : '_' ∉ P.data) :
    convert_property_room_id_to_uuid ("property_" ++ P) =
      convert_property_room_id_to_uuid ("temp_" ++ P ++ "_" ++ ts) := by
  have hPdata : ("property_" ++ P).data = "property_".data ++ P.data :=
    String.data_append _ _
  have hTdata : ("temp_" ++ P ++ "_" ++ ts).data =
      "temp".data ++ '_' :: (P.data ++ '_' :: ts.data) := by
    simp [String.data_append]
  have hprop : "property_".data =
      ['p', 'r', 'o', 'p', 'e', 'r', 't', 'y', '_'] := rfl
  have htemp : "temp".data = ['t', 'e', 'm', 'p'] := rfl
  -- left-hand side: the `property_` branch strips the prefix exactly
  have hLstart :
      pyStartsWith "property_".data ("property_" ++ P).data = true := by
    rw [hPdata]; exact pyStartsWith_append _ _
  have hLrepl : pyReplace "property_".data [] ("property_" ++ P).data
      = P.data := by
    rw [hPdata, hprop]
    have := pyReplace_cons_prefix 'p'
      ['r', 'o', 'p', 'e', 'r', 't', 'y', '_'] [] P.data
    simp only [List.cons_append] at this ⊢
    rw [this, List.nil_append]
    exact pyReplace_of_not_mem [] (by simp) h
  -- right-hand side: the `temp_` branch recovers the identifier from
  -- the second split segment
  have hTnotProp :
      pyStartsWith "property_".data ("temp_" ++ P ++ "_" ++ ts).data
        = false := by
    rw [hTdata, hprop, htemp]
    rfl
  have hTstart :
      pyStartsWith "temp_".data ("temp_" ++ P ++ "_" ++ ts).data
        = true := by
    have : ("temp_" ++ P ++ "_" ++ ts).data =
        "temp_".data ++ (P.data ++ '_' :: ts.data) := by
      simp [String.data_append]
    rw [this]; exact pyStartsWith_append _ _
  have hsplit : pySplit '_' ("temp_" ++ P ++ "_" ++ ts).data =
      "temp".data :: P.data :: pySplitAux '_' ts.data [] := by
    rw [hTdata]
    unfold pySplit
    rw [pySplitAux_seg '_' "temp".data (P.data ++ '_' :: ts.data) []
      (by rw [htemp]; decide)]
    rw [pySplitAux_seg '_' P.data ts.data [] h]
    simp
  obtain ⟨q, qs, hq⟩ := pySplitAux_ne_nil '_' ts.data []
  unfold convert_property_room_id_to_uuid
  simp only [hLstart, hTnotProp, hTstart, hsplit, hq, if_true, if_false,
    Bool.false_eq_true, hLrepl]

/-- Witness for C7 at a concrete property identifier and timestamp. -/
theorem convert_room_id_timestamp_independent_witness :
    '_' ∉ "p1".data ∧
      convert_property_room_id_to_uuid ("property_" ++ "p1") =
        convert_property_room_id_to_uuid ("temp_" ++ "p1" ++ "_" ++ "17") :=
  ⟨by decide, convert_room_id_timestamp_independent "p1" "17" (by decide)⟩

/-! ### Concrete fixtures used by witnesses and counterexamples -/

/-- Fixture user Alice. -/
def aliceU : UserRec := { id := "alice", name := "Alice" }

/-- Fixture user Bob. -/
def bobU : UserRec := { id := "bob", name := "Bob" }

/-- Fixture property. -/
def propP1 : PropertyRec :=
  { id := "p1", title := "Nice House", location := "Lagos"
    agent_name := some "Agent A", owner_id := "alice" }

/-- Fixture private room created by Alice. -/
def roomR1 : ChatRoomRec :=
  { id := "r1", name := some "Deal talk", room_type := "private"
    property_id := none, escrow_id := none, created_by := "alice"
    is_active := true, created_at := 1, updated_at := none }

/-- Fixture `property`-kind room for `propP1`, created by Alice. -/
def roomProp : ChatRoomRec :=
  { id := "rp", name := some "Chat about Nice House", room_type := "property"
    property_id := some "p1", escrow_id := none, created_by := "alice"
    is_active := true, created_at := 1, updated_at := none }

/-- Alice's admin participation in `roomR1`. -/
def partAliceR1 : ChatParticipantRec :=
  { id := "pa1", room_id := "r1", user_id := "alice", role := "admin"
    joined_at := 1, last_read_at := none, is_active := true }

/-- Bob's member participation in `roomR1`. -/
def partBobR1 : ChatParticipantRec :=
  { id := "pb1", room_id := "r1", user_id := "bob", role := "member"
    joined_at := 2, last_read_at := none, is_active := true }

/-- Alice's admin participation in `roomProp`. -/
def partAliceProp : ChatParticipantRec :=
  { id := "pap", room_id := "rp", user_id := "alice", role := "admin"
    joined_at := 1, last_read_at := none, is_active := true }

/-- Fixture message from Alice in `roomR1`. -/
def msgHello : ChatMessageRec :=
  { id := "m1", room_id := "r1", sender_id := "alice"
    message_type := "text", content := "Hello", file_url := none
    file_name := none, file_size := none, reply_to_id := none
    is_edited := false, is_deleted := false, created_at := 5
    updated_at := none }

/-- Fixture store: Alice and Bob share `roomR1` holding one message. -/
def dbBase : DB :=
  { users := [aliceU, bobU], properties := [propP1], escrows := []
    rooms := [roomR1], participants := [partAliceR1, partBobR1]
    messages := [msgHello], nextId := 10, now := 20 }

/-- Fixture store: the `property`-kind room `roomProp` with Alice as its
only participant. -/
def dbProp : DB :=
  { users := [aliceU, bobU], properties := [propP1], escrows := []
    rooms := [roomProp], participants := [partAliceProp]
    messages := [], nextId := 10, now := 20 }

/-- Fixture store with the property `p1` but no rooms at all. -/
def dbNoRooms : DB :=
  { users := [aliceU, bobU], properties := [propP1], escrows := []
    rooms := [], participants := [], messages := [], nextId := 0, now := 0 }

/-! ### C9 — `broadcast_to_all` failure isolation -/

/-- C9 (code bug): `broadcast_to_all` deletes a failing recipient from
`active_connections` while iterating that same dict.  On the next
`__next__` call CPython raises
`RuntimeError: dictionary changed size during iteration`, so delivery does
NOT continue to the remaining recipients and the exception propagates to
the caller (in `send_message` there is no `try` around the call, so the
request fails after the durable write).  Evaluated here at two connected
users where the first send fails: the failing channel is dropped, the
second user receives nothing, and the `RuntimeError` escapes. -/
theorem broadcast_to_all_failure_not_isolated :
    broadcast_to_all
      { active_connections := [("u1", ⟨true⟩), ("u2", ⟨false⟩)]
        room_connections := [] }
      "message" "Hello" none none =
    (some dictMutationError,
     { active_connections := [("u2", ⟨false⟩)], room_connections := [] },
     []) := by
  rfl

/-! ### C3 — `delete_message` -/

/-- C3: `delete_message` answers NotFound whenever no row of this message
in this room has the caller as its not-yet-deleted sender (leaving the
store untouched); when the caller is the sender of the not-yet-deleted
message, the row is retained, soft-deleted, and its content replaced by
the fixed tombstone string. -/
theorem delete_message_spec (room_id message_id : String) (u : UserRec)
    (db : DB) :
    ((∀ m ∈ db.messages, m.id = message_id → m.room_id = room_id →
        m.sender_id ≠ u.id ∨ m.is_deleted = true) →
      delete_message room_id message_id u db = (.error .notFound, db)) ∧
    (∀ m, db.messages.find? (ownEditablePred room_id message_id u.id)
        = some m →
      (delete_message room_id message_id u db).1
          = .ok "Message deleted successfully" ∧
      (delete_message room_id message_id u db).2.messages.length
          = db.messages.length ∧
      ∃ x ∈ (delete_message room_id message_id u db).2.messages,
        x.id = message_id ∧ x.is_deleted = true ∧
          x.content = "This message was deleted") := by
  constructor
  · intro hall
    have hnone : db.messages.find?
        (ownEditablePred room_id message_id u.id) = none := by
      rw [List.find?_eq_none]
      intro x hx
      simp only [ownEditablePred, Bool.and_eq_true, beq_iff_eq,
        Bool.not_eq_true']
      rintro ⟨⟨⟨h1, h2⟩, h3⟩, h4⟩
      rcases hall x hx h1 h2 with h | h
      · exact h h3
      · rw [h] at h4; cases h4
    unfold delete_message
    rw [hnone]
  · intro m hfind
    have hm : m ∈ db.messages := List.mem_of_find?_eq_some hfind
    have hpred : ownEditablePred room_id message_id u.id m = true :=
      List.find?_some hfind
    simp only [ownEditablePred, Bool.and_eq_true, beq_iff_eq,
      Bool.not_eq_true'] at hpred
    obtain ⟨⟨⟨hid, _⟩, _⟩, _⟩ := hpred
    unfold delete_message
    rw [hfind]
    refine ⟨rfl, by simp, ?_⟩
    refine
      ⟨{ m with
           is_deleted := true
           content := "This message was deleted"
           updated_at := some db.now },
       ?_, hid, rfl, rfl⟩
    simp only [List.mem_map]
    exact ⟨m, hm, by simp⟩

/-- Witness for C3: Bob cannot delete Alice's message (NotFound, store
untouched); Alice's delete soft-deletes the row into the tombstone. -/
theorem delete_message_spec_witness :
    ((∀ m ∈ dbBase.messages, m.id = "m1" → m.room_id = "r1" →
        m.sender_id ≠ bobU.id ∨ m.is_deleted = true) ∧
      delete_message "r1" "m1" bobU dbBase
        = (.error .notFound, dbBase)) ∧
    (dbBase.messages.find? (ownEditablePred "r1" "m1" aliceU.id)
        = some msgHello ∧
      (delete_message "r1" "m1" aliceU dbBase).1
          = .ok "Message deleted successfully" ∧
      (delete_message "r1" "m1" aliceU dbBase).2.messages.length
          = dbBase.messages.length ∧
      ∃ x ∈ (delete_message "r1" "m1" aliceU dbBase).2.messages,
        x.id = "m1" ∧ x.is_deleted = true ∧
          x.content = "This message was deleted") :=
  ⟨⟨by decide, (delete_message_spec "r1" "m1" bobU dbBase).1 (by decide)⟩,
   ⟨by rfl,
    (delete_message_spec "r1" "m1" aliceU dbBase).2 msgHello (by rfl)⟩⟩

/-! ### C4 — `edit_message` -/

/-- C4: when every row of this message in this room has a sender other
than the caller, `edit_message` answers NotFound and the store — hence the
message's content, edited flag and timestamps — is unchanged; when the
caller is the sender of the not-yet-deleted message, the edit succeeds,
replaces the content and sets the edited flag. -/
theorem edit_message_spec (room_id message_id new_content : String)
    (u : UserRec) (db : DB) :
    ((∀ m ∈ db.messages, m.id = message_id → m.room_id = room_id →
        m.sender_id ≠ u.id) →
      edit_message room_id message_id new_content u db
        = (.error .notFound, db)) ∧
    (∀ m, db.messages.find? (ownEditablePred room_id message_id u.id)
        = some m →
      (edit_message room_id message_id new_content u db).1
          = .ok (mkMessageView
              (edit_message room_id message_id new_content u db).2
              { m with content := new_content, is_edited := true
                       updated_at := some db.now }) ∧
      ∃ x ∈ (edit_message room_id message_id new_content u db).2.messages,
        x.id = message_id ∧ x.content = new_content ∧
          x.is_edited = true) := by
  constructor
  · intro hall
    have hnone : db.messages.find?
        (ownEditablePred room_id message_id u.id) = none := by
      rw [List.find?_eq_none]
      intro x hx
      simp only [ownEditablePred, Bool.and_eq_true, beq_iff_eq,
        Bool.not_eq_true']
      rintro ⟨⟨⟨h1, h2⟩, h3⟩, _⟩
      exact hall x hx h1 h2 h3
    unfold edit_message
    rw [hnone]
  · intro m hfind
    have hm : m ∈ db.messages := List.mem_of_find?_eq_some hfind
    have hpred : ownEditablePred room_id message_id u.id m = true :=
      List.find?_some hfind
    simp only [ownEditablePred, Bool.and_eq_true, beq_iff_eq,
      Bool.not_eq_true'] at hpred
    obtain ⟨⟨⟨hid, _⟩, _⟩, _⟩ := hpred
    unfold edit_message
    rw [hfind]
    refine ⟨rfl, ?_⟩
    refine
      ⟨{ m with
           content := new_content
           is_edited := true
           updated_at := some db.now },
       ?_, hid, rfl, rfl⟩
    simp only [List.mem_map]
    exact ⟨m, hm, by simp⟩

/-- Witness for C4: Bob's edit of Alice's message fails and changes
nothing; Alice's own edit succeeds and sets the edited flag. -/
theorem edit_message_spec_witness :
    ((∀ m ∈ dbBase.messages, m.id = "m1" → m.room_id = "r1" →
        m.sender_id ≠ bobU.id) ∧
      edit_message "r1" "m1" "Hacked" bobU dbBase
        = (.error .notFound, dbBase)) ∧
    (dbBase.messages.find? (ownEditablePred "r1" "m1" aliceU.id)
        = some msgHello ∧
      ∃ x ∈ (edit_message "r1" "m1" "Hi there" aliceU dbBase).2.messages,
        x.id = "m1" ∧ x.content = "Hi there" ∧ x.is_edited = true) :=
  ⟨⟨by decide, (edit_message_spec "r1" "m1" "Hacked" bobU dbBase).1
      (by decide)⟩,
   ⟨by rfl,
    ((edit_message_spec "r1" "m1" "Hi there" aliceU dbBase).2 msgHello
      (by rfl)).2⟩⟩

/-! ### C6 — read access to `property`-kind rooms -/

/-- An identifier with neither synthetic prefix passes through the
conversion unchanged. -/
theorem convert_of_no_prefix (room_id : String)
    (h1 : pyStartsWith "property_".data room_id.data = false)
    (h2 : pyStartsWith "temp_".data room_id.data = false) :
    convert_property_room_id_to_uuid room_id = room_id := by
  unfold convert_property_room_id_to_uuid
  simp [h1, h2]

/-- C6 counterexample: `roomProp` is a `property`-kind room and Bob is
authenticated but not a participant; `get_chat_messages` (the
`list_messages` read operation) answers Forbidden rather than
succeeding. -/
theorem property_room_list_messages_forbidden_cex :
    roomProp.room_type = "property" ∧
      findActiveParticipant dbProp "rp" bobU.id = none ∧
      (get_chat_messages "rp" bobU 0 50 dbProp).1
        = .error .forbidden := by
  refine ⟨rfl, rfl, rfl⟩

/-- C6 amended: for a `property`-kind room under its canonical identifier
and an authenticated non-participant, `get_room` succeeds, but
`list_messages` applies the active-participant check regardless of room
kind and fails with Forbidden. -/
theorem property_room_read_access (room_id : String) (u : UserRec)
    (db : DB) (room : ChatRoomRec) (skip limit : Nat)
    (h1 : pyStartsWith "property_".data room_id.data = false)
    (h2 : pyStartsWith "temp_".data room_id.data = false)
    (hfind : db.rooms.find? (fun r => r.id == room_id) = some room)
    (hkind : room.room_type = "property")
    (hnp : db.participants.find? (fun p =>
        p.room_id == room_id && p.user_id == u.id && p.is_active)
      = none) :
    (get_chat_room room_id u db).1
        = .ok (get_chat_room_details room db) ∧
      (get_chat_messages room_id u skip limit db).1
        = .error .forbidden := by
  have hconv := convert_of_no_prefix room_id h1 h2
  constructor
  · unfold get_chat_room
    simp only [hconv, hfind, h1, h2, Bool.false_eq_true, if_false]
    unfold get_chat_room_checked
    simp [hkind]
  · unfold get_chat_messages
    simp only [hconv]
    unfold findActiveParticipant
    simp only [hnp]

/-- Witness for C6's amended theorem at the concrete fixture. -/
theorem property_room_read_access_witness :
    (pyStartsWith "property_".data "rp".data = false ∧
      pyStartsWith "temp_".data "rp".data = false ∧
      dbProp.rooms.find? (fun r => r.id == "rp") = some roomProp ∧
      roomProp.room_type = "property" ∧
      dbProp.participants.find? (fun p =>
        p.room_id == "rp" && p.user_id == bobU.id && p.is_active)
        = none) ∧
    ((get_chat_room "rp" bobU dbProp).1
        = .ok (get_chat_room_details roomProp dbProp) ∧
      (get_chat_messages "rp" bobU 0 50 dbProp).1
        = .error .forbidden) :=
  ⟨⟨by decide, by decide, by rfl, rfl, by rfl⟩,
   property_room_read_access "rp" bobU dbProp roomProp 0 50
     (by decide) (by decide) (by rfl) rfl (by rfl)⟩

/-! ### C5 — the creating user's participant role -/

/-- C5 counterexample: resolving the synthetic identifier `property_p1`
against a store with no rooms creates the property room and adds the
creating user as a participant with role `member`, not `admin`
(chat.py lines 526-534). -/
theorem synthetic_creation_creator_role_cex :
    (get_chat_room "property_p1" aliceU dbNoRooms).2.participants.map
        (fun p => (p.user_id, p.role))
      = [("alice", "member")] := by
  rfl

/-! ### C2 — soft delete and `list_messages` visibility -/

theorem mem_insertByCreatedDesc {x m : ChatMessageRec}
    {l : List ChatMessageRec} :
    x ∈ insertByCreatedDesc m l ↔ x = m ∨ x ∈ l := by
  induction l with
  | nil => simp [insertByCreatedDesc]
  | cons y ys ih =>
      by_cases h : y.created_at < m.created_at
      · simp [insertByCreatedDesc, h]
      · simp only [insertByCreatedDesc, h, if_false, List.mem_cons, ih]
        tauto

theorem mem_sortByCreatedDesc {x : ChatMessageRec}
    {l : List ChatMessageRec} :
    x ∈ sortByCreatedDesc l ↔ x ∈ l := by
  induction l with
  | nil => simp [sortByCreatedDesc]
  | cons y ys ih =>
      show x ∈ insertByCreatedDesc y (sortByCreatedDesc ys) ↔ _
      rw [mem_insertByCreatedDesc]
      simp [ih]

/-- C2 counterexample: after Alice deletes her message, `list_messages`
returns no row at all for it (the claim asserts a tombstoned row is still
returned), even though the delete succeeded. -/
theorem delete_message_then_list_cex :
    (delete_message "r1" "m1" aliceU dbBase).1
        = .ok "Message deleted successfully" ∧
      (get_chat_messages "r1" aliceU 0 50
        (delete_message "r1" "m1" aliceU dbBase).2).1 = .ok [] := by
  exact ⟨rfl, rfl⟩

theorem map_id_of_fixed {α : Type} (f : α → α) :
    ∀ l : List α, (∀ x ∈ l, f x = x) → l.map f = l := by
  intro l h
  induction l with
  | nil => rfl
  | cons a as ih =>
      rw [List.map_cons, h a (List.mem_cons_self a as),
        ih (fun x hx => h x (List.mem_cons_of_mem _ hx))]

/-- Soft-deleting one row (keyed by a primary key that is unique in the
table) removes exactly that row from the non-deleted count. -/
theorem count_filter_tombstone (rid : String) (now : Nat)
    (m : ChatMessageRec) :
    ∀ l : List ChatMessageRec, (l.map (fun x => x.id)).Nodup → m ∈ l →
      m.room_id = rid → m.is_deleted = false →
      (List.filter (fun x => x.room_id == rid && !x.is_deleted)
          (l.map (fun x =>
            if x.id == m.id then
              { x with is_deleted := true
                       content := "This message was deleted"
                       updated_at := some now }
            else x))).length + 1
        = (l.filter (fun x => x.room_id == rid && !x.is_deleted)).length := by
  intro l
  induction l with
  | nil => intro _ hm; cases hm
  | cons y ys ih =>
      intro hnd hm hroom hdel
      have hnd' : y.id ∉ ys.map (fun x => x.id) ∧
          (ys.map (fun x => x.id)).Nodup := by
        rw [List.map_cons, List.nodup_cons] at hnd
        exact hnd
      rcases List.mem_cons.mp hm with rfl | hm'
      · -- the head is the deleted row; the tail is untouched
        have hys : ys.map (fun x =>
            if x.id == m.id then
              { x with is_deleted := true
                       content := "This message was deleted"
                       updated_at := some now }
            else x) = ys := by
          apply map_id_of_fixed
          intro x hx
          have hne : ¬(x.id == m.id) = true := by
            simp only [beq_iff_eq]
            intro hEq
            exact hnd'.1 (hEq ▸ List.mem_map_of_mem _ hx)
          simp [hne]
        rw [List.map_cons, hys]
        rw [List.filter_cons, List.filter_cons]
        simp only [beq_self_eq_true, if_true, hroom, hdel,
          Bool.not_false, Bool.and_true, Bool.and_false]
        simp
      · -- the head is a different row; it contributes equally to both
        have hyne : ¬(y.id == m.id) = true := by
          simp only [beq_iff_eq]
          intro hEq
          exact hnd'.1 (hEq ▸ List.mem_map_of_mem _ hm')
        rw [List.map_cons]
        simp only [hyne, Bool.false_eq_true, if_false]
        rw [List.filter_cons, List.filter_cons]
        by_cases hpy : (y.room_id == rid && !y.is_deleted) = true
        · simp only [hpy, if_true, List.length_cons]
          have := ih hnd'.2 hm' hroom hdel
          omega
        · simp only [hpy, Bool.false_eq_true, if_false]
          exact ih hnd'.2 hm' hroom hdel

/-- C2 amended: after a successful `delete_message(m)` the stored row for
`m` is retained with `is_deleted = true` and the fixed tombstone content,
and the room's message count excludes it — but `list_messages` filters
soft-deleted rows out, so it no longer returns any row for `m`. -/
theorem delete_message_soft_delete_visibility
    (room_id message_id : String) (u q : UserRec) (db : DB)
    (m : ChatMessageRec) (pq : ChatParticipantRec) (skip limit : Nat)
    (h1 : pyStartsWith "property_".data room_id.data = false)
    (h2 : pyStartsWith "temp_".data room_id.data = false)
    (hfind : db.messages.find? (ownEditablePred room_id message_id u.id)
      = some m)
    (hnd : (db.messages.map (fun x => x.id)).Nodup)
    (hq : db.participants.find? (fun p =>
        p.room_id == room_id && p.user_id == q.id && p.is_active)
      = some pq) :
    (delete_message room_id message_id u db).1
        = .ok "Message deleted successfully" ∧
      (∃ x ∈ (delete_message room_id message_id u db).2.messages,
        x.id = message_id ∧ x.is_deleted = true ∧
          x.content = "This message was deleted") ∧
      (∃ l, (get_chat_messages room_id q skip limit
            (delete_message room_id message_id u db).2).1 = .ok l ∧
          ∀ v ∈ l, v.id ≠ message_id) ∧
      messageCount (delete_message room_id message_id u db).2 room_id + 1
        = messageCount db room_id := by
  have hm : m ∈ db.messages := List.mem_of_find?_eq_some hfind
  have hpred : ownEditablePred room_id message_id u.id m = true :=
    List.find?_some hfind
  simp only [ownEditablePred, Bool.and_eq_true, beq_iff_eq,
    Bool.not_eq_true'] at hpred
  obtain ⟨⟨⟨hid, hrm⟩, _⟩, hnotdel⟩ := hpred
  have hconv := convert_of_no_prefix room_id h1 h2
  unfold delete_message
  rw [hfind]
  refine ⟨rfl, ?_, ?_, ?_⟩
  · refine
      ⟨{ m with
           is_deleted := true
           content := "This message was deleted"
           updated_at := some db.now },
       ?_, hid, rfl, rfl⟩
    simp only [List.mem_map]
    exact ⟨m, hm, by simp⟩
  · unfold get_chat_messages findActiveParticipant
    simp only [hconv, hq]
    refine ⟨_, rfl, ?_⟩
    intro v hv
    obtain ⟨x, hx, hxv⟩ := List.mem_map.mp hv
    have hxid : v.id = x.id := by rw [← hxv]; rfl
    have hx2 : x ∈ roomMessagesDesc
        { db with
          messages := db.messages.map (fun x =>
            if x.id == m.id then
              { x with is_deleted := true
                       content := "This message was deleted"
                       updated_at := some db.now }
            else x)
          now := db.now + 1 } room_id :=
      List.drop_subset _ _ (List.take_subset _ _ hx)
    rw [roomMessagesDesc] at hx2
    have hx3 := mem_sortByCreatedDesc.mp hx2
    have hx4 := List.mem_filter.mp hx3
    obtain ⟨y, hy, hyx⟩ := List.mem_map.mp hx4.1
    have hxdel : x.is_deleted = false := by
      have := hx4.2
      simp only [Bool.and_eq_true, Bool.not_eq_true'] at this
      exact this.2
    rw [hxid]
    intro hxeq
    by_cases hyid : (y.id == m.id) = true
    · rw [if_pos hyid] at hyx
      rw [← hyx] at hxdel
      cases hxdel
    · rw [if_neg hyid] at hyx
      simp only [beq_iff_eq] at hyid
      rw [← hyx] at hxeq
      rw [hxeq, ← hid] at hyid
      exact hyid rfl
  · unfold messageCount
    exact count_filter_tombstone room_id db.now m db.messages hnd hm
      hrm hnotdel

/-- Witness for C2's amended theorem: Alice deletes her message in the
base fixture and Bob lists the room. -/
theorem delete_message_soft_delete_visibility_witness :
    (pyStartsWith "property_".data "r1".data = false ∧
      dbBase.messages.find? (ownEditablePred "r1" "m1" aliceU.id)
        = some msgHello ∧
      (dbBase.messages.map (fun x => x.id)).Nodup) ∧
    ((delete_message "r1" "m1" aliceU dbBase).1
        = .ok "Message deleted successfully" ∧
      (∃ x ∈ (delete_message "r1" "m1" aliceU dbBase).2.messages,
        x.id = "m1" ∧ x.is_deleted = true ∧
          x.content = "This message was deleted") ∧
      (∃ l, (get_chat_messages "r1" bobU 0 50
            (delete_message "r1" "m1" aliceU dbBase).2).1 = .ok l ∧
          ∀ v ∈ l, v.id ≠ "m1") ∧
      messageCount (delete_message "r1" "m1" aliceU dbBase).2 "r1" + 1
        = messageCount dbBase "r1") :=
  ⟨⟨by decide, by rfl, by decide⟩,
   delete_message_soft_delete_visibility "r1" "m1" aliceU bobU dbBase
     msgHello partBobR1 0 50 (by decide) (by decide) (by rfl) (by decide)
     (by rfl)⟩

/-! ### C1 — idempotent property-room creation -/

theorem find?_append_of_none {α : Type} (p : α → Bool) {l1 : List α}
    (l2 : List α) (h : l1.find? p = none) :
    (l1 ++ l2).find? p = l2.find? p := by
  induction l1 with
  | nil => rfl
  | cons a as ih =>
      cases hpa : p a with
      | true => simp [List.find?_cons, hpa] at h
      | false =>
          simp only [List.find?_cons, hpa] at h
          simp only [List.cons_append, List.find?_cons, hpa]
          exact ih h

/-- The participant-insertion loop touches only the participant table, the
key generator and the clock. -/
theorem createParticipantsLoop_fields (rid cuid : String)
    (ids : List String) :
    ∀ db : DB,
      (createParticipantsLoop rid cuid db ids).1.properties
          = db.properties ∧
        (createParticipantsLoop rid cuid db ids).1.rooms = db.rooms := by
  induction ids with
  | nil => intro db; exact ⟨rfl, rfl⟩
  | cons uid rest ih =>
      intro db
      unfold createParticipantsLoop
      cases hu : db.users.find? (fun u => u.id == uid) with
      | none => simpa using ih db
      | some w => simpa using ih _

/-- The fresh-creation path of `create_chat_room` appends exactly the one
new room and leaves the property table unchanged. -/
theorem create_chat_room_fresh_fields (data : ChatRoomCreate)
    (pid eid : Option String) (u : UserRec) (db : DB)
    (cm : ConnectionManager) :
    (create_chat_room_fresh data pid eid u db cm).2.1.properties
        = db.properties ∧
      (create_chat_room_fresh data pid eid u db cm).2.1.rooms
        = db.rooms ++
            [{ id := genId db.nextId, name := data.name
               room_type := data.room_type, property_id := pid
               escrow_id := eid, created_by := u.id, is_active := true
               created_at := db.now, updated_at := none }] := by
  unfold create_chat_room_fresh
  by_cases hc : data.participant_ids.contains u.id = true
  · simp only [hc, if_true]
    exact createParticipantsLoop_fields _ _ _ _
  · simp only [hc, Bool.false_eq_true, if_false]
    have h := createParticipantsLoop_fields (genId db.nextId) u.id
      data.participant_ids
      { db with
        rooms := db.rooms ++
          [{ id := genId db.nextId, name := data.name
             room_type := data.room_type, property_id := pid
             escrow_id := eid, created_by := u.id, is_active := true
             created_at := db.now, updated_at := none }]
        nextId := db.nextId + 1, now := db.now + 1 }
    exact h

/-- When an active room already exists for the requested property,
`create_chat_room` returns it (joining the caller as a participant when
needed) and creates no new room. -/
theorem create_chat_room_existing (data : ChatRoomCreate) (u : UserRec)
    (db : DB) (cm : ConnectionManager) (P : String) (room : ChatRoomRec)
    (hp : data.property_id = some P)
    (hvalid : (db.properties.find? (fun p => p.id == P)).isNone = false)
    (hfound : db.rooms.find?
      (fun r => r.property_id == some P && r.is_active) = some room) :
    (create_chat_room data u db cm).1
        = .ok (get_chat_room_details room
            (create_chat_room data u db cm).2.1) ∧
      (create_chat_room data u db cm).2.1.rooms = db.rooms ∧
      (∃ p ∈ (create_chat_room data u db cm).2.1.participants,
        p.room_id = room.id ∧ p.user_id = u.id ∧ p.is_active = true) := by
  unfold create_chat_room
  simp only [hp, hvalid, Bool.false_eq_true, if_false, hfound]
  cases hpart : findActiveParticipant db room.id u.id with
  | some pex =>
      simp only [hpart]
      have hpexmem : pex ∈ db.participants :=
        List.mem_of_find?_eq_some hpart
      have hpexpred := List.find?_some hpart
      simp only [Bool.and_eq_true, beq_iff_eq] at hpexpred
      refine ⟨by simp, by simp, ?_⟩
      exact ⟨pex, hpexmem, hpexpred.1.1, hpexpred.1.2, hpexpred.2⟩
  | none =>
      simp only [hpart]
      refine ⟨by simp, by simp, ?_⟩
      exact ⟨_, List.mem_append_right _ (List.mem_singleton_self _),
        rfl, rfl, rfl⟩

/-- C1: starting from a store holding the valid property `P` and no
active room linked to it, two `create_room` calls for `P` from different
users leave exactly one active room for `P`; the second call succeeds,
returns that same room, and the second caller ends up an active
participant of it. -/
theorem create_room_for_property_idempotent
    (data1 data2 : ChatRoomCreate) (u1 u2 : UserRec) (db : DB)
    (cm1 cm2 : ConnectionManager) (P : String) (prop : PropertyRec)
    (hp1 : data1.property_id = some P)
    (hesc : data1.escrow_id = none)
    (hp2 : data2.property_id = some P)
    (hprop : db.properties.find? (fun p => p.id == P) = some prop)
    (hnoroom : db.rooms.find?
      (fun r => r.property_id == some P && r.is_active) = none)
    (_hdiff : u1.id ≠ u2.id) :
    ((create_chat_room data2 u2
          (create_chat_room data1 u1 db cm1).2.1 cm2).2.1.rooms.filter
        (fun r => r.property_id == some P && r.is_active)).length = 1 ∧
      (∃ d, (create_chat_room data2 u2
          (create_chat_room data1 u1 db cm1).2.1 cm2).1 = .ok d ∧
        d.id = genId db.nextId) ∧
      (∃ p ∈ (create_chat_room data2 u2
          (create_chat_room data1 u1 db cm1).2.1 cm2).2.1.participants,
        p.room_id = genId db.nextId ∧ p.user_id = u2.id ∧
          p.is_active = true) := by
  -- the first call takes the fresh-creation path
  have hcall1 : create_chat_room data1 u1 db cm1
      = create_chat_room_fresh data1 (some P) none u1 db cm1 := by
    unfold create_chat_room
    simp only [hp1, hprop, Option.isNone_some, Bool.false_eq_true,
      if_false, hnoroom, create_chat_room_escrow, hesc]
  obtain ⟨hprops1, hrooms1⟩ := create_chat_room_fresh_fields data1
    (some P) none u1 db cm1
  rw [← hcall1] at hprops1 hrooms1
  have hfound : (create_chat_room data1 u1 db cm1).2.1.rooms.find?
      (fun r => r.property_id == some P && r.is_active)
      = some { id := genId db.nextId, name := data1.name
               room_type := data1.room_type, property_id := some P
               escrow_id := none, created_by := u1.id, is_active := true
               created_at := db.now, updated_at := none } := by
    rw [hrooms1, find?_append_of_none _ _ hnoroom]
    simp
  have hfilter : (create_chat_room data1 u1 db cm1).2.1.rooms.filter
      (fun r => r.property_id == some P && r.is_active)
      = [{ id := genId db.nextId, name := data1.name
           room_type := data1.room_type, property_id := some P
           escrow_id := none, created_by := u1.id, is_active := true
           created_at := db.now, updated_at := none }] := by
    rw [hrooms1, List.filter_append]
    have h0 : db.rooms.filter
        (fun r => r.property_id == some P && r.is_active) = [] := by
      rw [List.filter_eq_nil_iff]
      intro a ha
      exact (List.find?_eq_none.mp hnoroom) a ha
    rw [h0, List.nil_append]
    simp
  -- reduce the second call: the property is found and the new room is the
  -- existing active room for it
  have hvalid : ((create_chat_room data1 u1 db cm1).2.1.properties.find?
      (fun p => p.id == P)).isNone = false := by
    rw [hprops1, hprop]; rfl
  obtain ⟨hok, hrooms2, hpart⟩ := create_chat_room_existing data2 u2
    (create_chat_room data1 u1 db cm1).2.1 cm2 P _ hp2 hvalid hfound
  refine ⟨?_, ⟨_, hok, rfl⟩, ?_⟩
  · rw [hrooms2, hfilter]; rfl
  · exact hpart

/-- Empty gateway fixture. -/
def cmEmpty : ConnectionManager :=
  { active_connections := [], room_connections := [] }

/-- Alice's property-room creation request. -/
def dataC1a : ChatRoomCreate :=
  { name := some "About p1", room_type := "property"
    property_id := some "p1", escrow_id := none
    participant_ids := ["bob"] }

/-- Bob's later creation request for the same property. -/
def dataC1b : ChatRoomCreate :=
  { name := none, room_type := "property", property_id := some "p1"
    escrow_id := none, participant_ids := ["alice"] }

/-- Witness for C1: Alice then Bob create a room for `p1` on the
room-less fixture. -/
theorem create_room_for_property_idempotent_witness :
    aliceU.id ≠ bobU.id ∧
      (((create_chat_room dataC1b bobU
            (create_chat_room dataC1a aliceU dbNoRooms cmEmpty).2.1
            cmEmpty).2.1.rooms.filter
          (fun r => r.property_id == some "p1" && r.is_active)).length = 1 ∧
        (∃ d, (create_chat_room dataC1b bobU
            (create_chat_room dataC1a aliceU dbNoRooms cmEmpty).2.1
            cmEmpty).1 = .ok d ∧
          d.id = genId dbNoRooms.nextId) ∧
        (∃ p ∈ (create_chat_room dataC1b bobU
            (create_chat_room dataC1a aliceU dbNoRooms cmEmpty).2.1
            cmEmpty).2.1.participants,
          p.room_id = genId dbNoRooms.nextId ∧ p.user_id = bobU.id ∧
            p.is_active = true)) :=
  ⟨by decide,
   create_room_for_property_idempotent dataC1a dataC1b aliceU bobU
     dbNoRooms cmEmpty cmEmpty "p1" propP1 rfl rfl rfl (by rfl) (by rfl)
     (by decide)⟩

/-! ### C8 — durable write of `send_message` -/

theorem find?_append_of_some {α : Type} (p : α → Bool) {l1 : List α}
    (l2 : List α) {a : α} (h : l1.find? p = some a) :
    (l1 ++ l2).find? p = some a := by
  induction l1 with
  | nil => cases h
  | cons b bs ih =>
      cases hpb : p b with
      | true =>
          simp only [List.find?_cons, hpb] at h
          simp only [List.cons_append, List.find?_cons, hpb]
          exact h
      | false =>
          simp only [List.find?_cons, hpb] at h
          simp only [List.cons_append, List.find?_cons, hpb]
          exact ih h

/-- The `property_id` backfill touches only the room table and the
clock. -/
theorem backfillPropertyId_fields (room : ChatRoomRec) (pid : String)
    (db : DB) :
    (backfillPropertyId room pid db).2.messages = db.messages ∧
      (backfillPropertyId room pid db).2.participants = db.participants ∧
      db.now ≤ (backfillPropertyId room pid db).2.now := by
  unfold backfillPropertyId
  cases h : room.property_id with
  | some _ => exact ⟨rfl, rfl, le_rfl⟩
  | none => exact ⟨rfl, rfl, Nat.le_succ _⟩

/-- The property-creation arm of `send_message`'s resolution never touches
the message log; it only appends participants and advances the clock. -/
theorem send_message_resolve_property_state (actual pid : String)
    (u : UserRec) (db : DB) (cm : ConnectionManager) :
    ∃ extraP : List ChatParticipantRec,
      (send_message_resolve_property actual pid u db cm).2.1.messages
          = db.messages ∧
        (send_message_resolve_property actual pid u db cm).2.1.participants
          = db.participants ++ extraP ∧
        db.now ≤ (send_message_resolve_property actual pid u db cm).2.1.now
    := by
  unfold send_message_resolve_property
  cases hf : db.rooms.find?
      (fun r => r.property_id == some pid && r.room_type == "property") with
  | some r =>
      simp only [hf]
      refine ⟨[], ?_, ?_, ?_⟩ <;> simp
  | none =>
      simp only [hf]
      cases hp : db.properties.find? (fun p => p.id == pid) with
      | none =>
          simp only [hp]
          refine ⟨[], ?_, ?_, ?_⟩ <;> simp
      | some pobj =>
          simp only [hp]
          cases hb : (broadcast_to_all cm "room_created" "" (some actual)
              none).1 with
          | some e =>
              simp only [hb]
              refine ⟨[], ?_, ?_, ?_⟩ <;> simp
          | none =>
              simp only [hb]
              refine ⟨[{ id := genId db.nextId, room_id := actual
                         user_id := u.id, role := "member"
                         joined_at := db.now + 1, last_read_at := none
                         is_active := true }], ?_, ?_, ?_⟩
              · simp
              · simp
              · omega

/-- `send_message`'s room resolution never touches the message log; it
only appends participants and advances the clock. -/
theorem send_message_resolve_state (room_id : String) (u : UserRec)
    (db : DB) (cm : ConnectionManager) :
    ∃ extraP : List ChatParticipantRec,
      (send_message_resolve room_id u db cm).2.1.messages = db.messages ∧
        (send_message_resolve room_id u db cm).2.1.participants
          = db.participants ++ extraP ∧
        db.now ≤ (send_message_resolve room_id u db cm).2.1.now := by
  unfold send_message_resolve
  cases hf : db.rooms.find?
      (fun r => r.id == convert_property_room_id_to_uuid room_id) with
  | some room =>
      simp only [hf]
      by_cases h1 : pyStartsWith "property_".data room_id.data = true
      · rw [if_pos h1]
        obtain ⟨hm, hp, hn⟩ := backfillPropertyId_fields room
          (String.mk (pyReplace "property_".data [] room_id.data)) db
        exact ⟨[], hm, by rw [hp, List.append_nil], hn⟩
      · rw [if_neg h1]
        by_cases h2 : pyStartsWith "temp_".data room_id.data = true
        · rw [if_pos h2]
          split
          · refine ⟨[], ?_, ?_, ?_⟩
            · exact (backfillPropertyId_fields _ _ _).1
            · rw [List.append_nil]
              exact (backfillPropertyId_fields _ _ _).2.1
            · exact (backfillPropertyId_fields _ _ _).2.2
          · refine ⟨[], ?_, ?_, ?_⟩ <;> simp
        · rw [if_neg h2]
          refine ⟨[], ?_, ?_, ?_⟩ <;> simp
  | none =>
      simp only [hf]
      by_cases h1 : pyStartsWith "property_".data room_id.data = true
      · rw [if_pos h1]
        exact send_message_resolve_property_state _ _ u db cm
      · rw [if_neg h1]
        by_cases h2 : pyStartsWith "temp_".data room_id.data = true
        · rw [if_pos h2]
          split
          · exact send_message_resolve_property_state _ _ u db cm
          · refine ⟨[], ?_, ?_, ?_⟩ <;> simp
        · rw [if_neg h2]
          refine ⟨[], ?_, ?_, ?_⟩ <;> simp

/-- Whatever happens during fan-out, the database coming out of
`send_message_deliver` is the input database with exactly the one new
message row appended (the durable write precedes fan-out). -/
theorem send_message_deliver_db (actual room_id : String)
    (msg : ChatMessageSend) (u : UserRec) (db : DB)
    (cm : ConnectionManager) (evs0 : List Event) :
    (send_message_deliver actual room_id msg u db cm evs0).2.1
      = { db with
          messages := db.messages ++ [newMessageRow actual msg u db]
          nextId := db.nextId + 1, now := db.now + 1 } := by
  simp only [send_message_deliver]
  repeat' split
  all_goals rfl

theorem foldr_insert_max (m : ChatMessageRec) :
    ∀ l : List ChatMessageRec, (∀ x ∈ l, x.created_at < m.created_at) →
      List.foldr insertByCreatedDesc [m] l
        = m :: List.foldr insertByCreatedDesc [] l := by
  intro l
  induction l with
  | nil => intro _; rfl
  | cons a l' ih =>
      intro h
      rw [List.foldr_cons, ih (fun x hx => h x (List.mem_cons_of_mem _ hx)),
        List.foldr_cons]
      have ha : ¬ m.created_at < a.created_at := by
        have := h a (List.mem_cons_self a l')
        omega
      simp only [insertByCreatedDesc, ha, if_false]

/-- Appending a strictly newest message and sorting puts it first. -/
theorem sortByCreatedDesc_append_max (l : List ChatMessageRec)
    (m : ChatMessageRec) (h : ∀ x ∈ l, x.created_at < m.created_at) :
    sortByCreatedDesc (l ++ [m]) = m :: sortByCreatedDesc l := by
  unfold sortByCreatedDesc
  rw [List.foldr_append]
  exact foldr_insert_max m l h

/-- When resolution succeeds and the caller is authorized, `send_message`
is the deliver tail on the resolved state. -/
theorem send_message_eq_deliver (room_id : String) (msg : ChatMessageSend)
    (u : UserRec) (db : DB) (cm : ConnectionManager) (room : ChatRoomRec)
    (db1 : DB) (cm1 : ConnectionManager) (evs : List Event)
    (hR : send_message_resolve room_id u db cm = (.ok room, db1, cm1, evs))
    (hauth : (room.room_type == "property" ||
      (findActiveParticipant db1
        (convert_property_room_id_to_uuid room_id) u.id).isSome) = true) :
    send_message room_id msg u db cm
      = send_message_deliver (convert_property_room_id_to_uuid room_id)
          room_id msg u db1 cm1 evs := by
  unfold send_message
  rw [hR]
  by_cases hrt : (room.room_type == "property") = true
  · simp only [hrt, if_true]
  · have hrt' : (room.room_type == "property") = false := by
      cases h : (room.room_type == "property") with
      | false => rfl
      | true => exact absurd h hrt
    simp only [hrt', Bool.false_or] at hauth
    obtain ⟨pu, hpu⟩ := Option.isSome_iff_exists.mp hauth
    simp only [hrt', Bool.false_eq_true, if_false, hpu]

/-- C8: whenever `send_message`'s room resolution succeeds and the sender
is authorized, exactly one durable message row is appended — for every
gateway state, so for zero, one or many live subscribers, and regardless
of any fan-out failure after the durable write.  An active participant who
missed the live push then sees that row first in `list_messages`. -/
theorem send_message_durable_row (room_id : String)
    (msg : ChatMessageSend) (u q : UserRec) (db : DB)
    (cm : ConnectionManager) (room : ChatRoomRec)
    (pq : ChatParticipantRec)
    (hres : (send_message_resolve room_id u db cm).1 = .ok room)
    (hauth : (room.room_type == "property" ||
      (findActiveParticipant (send_message_resolve room_id u db cm).2.1
        (convert_property_room_id_to_uuid room_id) u.id).isSome) = true)
    (hpast : ∀ x ∈ db.messages, x.created_at < db.now)
    (hq : db.participants.find? (fun p =>
        p.room_id == convert_property_room_id_to_uuid room_id &&
          p.user_id == q.id && p.is_active) = some pq) :
    ∃ m : ChatMessageRec,
      (send_message room_id msg u db cm).2.1.messages
          = db.messages ++ [m] ∧
        m.content = msg.content ∧ m.sender_id = u.id ∧
        m.room_id = convert_property_room_id_to_uuid room_id ∧
        m.is_deleted = false ∧
        ∃ l, (get_chat_messages room_id q 0 50
            (send_message room_id msg u db cm).2.1).1 = .ok l ∧
          l.head? = some (mkMessageView
            (send_message room_id msg u db cm).2.1 m) := by
  obtain ⟨extraP, hm1, hp1, hn1⟩ := send_message_resolve_state room_id u
    db cm
  rcases hRv : send_message_resolve room_id u db cm with ⟨res, db1, cm1, evs⟩
  rw [hRv] at hres hauth hm1 hp1 hn1
  replace hres : res = .ok room := hres
  subst hres
  replace hm1 : db1.messages = db.messages := hm1
  replace hp1 : db1.participants = db.participants ++ extraP := hp1
  replace hn1 : db.now ≤ db1.now := hn1
  replace hauth : (room.room_type == "property" ||
      (findActiveParticipant db1
        (convert_property_room_id_to_uuid room_id) u.id).isSome)
      = true := hauth
  have hsend := send_message_eq_deliver room_id msg u db cm room db1 cm1
    evs hRv hauth
  have hdb' := send_message_deliver_db
    (convert_property_room_id_to_uuid room_id) room_id msg u db1 cm1 evs
  refine ⟨newMessageRow (convert_property_room_id_to_uuid room_id) msg u
    db1, ?_, rfl, rfl, rfl, rfl, ?_⟩
  · rw [hsend, hdb', ← hm1]
  · rw [hsend, hdb']
    simp only [get_chat_messages, findActiveParticipant]
    have hqfind :
        ((({ db1 with
             messages := db1.messages ++
               [newMessageRow (convert_property_room_id_to_uuid room_id)
                 msg u db1]
             nextId := db1.nextId + 1
             now := db1.now + 1 } : DB)).participants.find? (fun p =>
          p.room_id == convert_property_room_id_to_uuid room_id &&
            p.user_id == q.id && p.is_active)) = some pq := by
      show (db1.participants.find? _) = some pq
      rw [hp1]
      exact find?_append_of_some _ _ hq
    rw [hqfind]
    have hsort : roomMessagesDesc
        { db1 with
          messages := db1.messages ++
            [newMessageRow (convert_property_room_id_to_uuid room_id)
              msg u db1]
          nextId := db1.nextId + 1
          now := db1.now + 1 } (convert_property_room_id_to_uuid room_id)
        = newMessageRow (convert_property_room_id_to_uuid room_id) msg u
            db1 ::
          sortByCreatedDesc (db1.messages.filter (fun x =>
            x.room_id == convert_property_room_id_to_uuid room_id &&
              !x.is_deleted)) := by
      unfold roomMessagesDesc
      show sortByCreatedDesc (List.filter _ (db1.messages ++ _)) = _
      rw [List.filter_append]
      have hmrow : List.filter (fun x =>
          x.room_id == convert_property_room_id_to_uuid room_id &&
            !x.is_deleted)
          [newMessageRow (convert_property_room_id_to_uuid room_id) msg u
            db1]
          = [newMessageRow (convert_property_room_id_to_uuid room_id) msg
              u db1] := by
        simp [newMessageRow]
      rw [hmrow]
      apply sortByCreatedDesc_append_max
      intro x hx
      have hxm : x ∈ db.messages := by
        rw [← hm1]
        exact List.mem_of_mem_filter hx
      have : x.created_at < db.now := hpast x hxm
      show x.created_at < db1.now
      omega
    rw [hsort]
    exact ⟨_, rfl, rfl⟩

/-- Fixture message payload. -/
def msgSendHi : ChatMessageSend :=
  { content := "Hi Bob", message_type := "text", file_url := none
    file_name := none, file_size := none, reply_to_id := none }

/-- Witness for C8: Alice sends into the base fixture room with no one
connected; the row is durably stored and Bob sees it first in
`list_messages`. -/
theorem send_message_durable_row_witness :
    ((send_message_resolve "r1" aliceU dbBase cmEmpty).1 = .ok roomR1 ∧
      (∀ x ∈ dbBase.messages, x.created_at < dbBase.now) ∧
      dbBase.participants.find? (fun p =>
        p.room_id == convert_property_room_id_to_uuid "r1" &&
          p.user_id == bobU.id && p.is_active) = some partBobR1) ∧
    (∃ m : ChatMessageRec,
      (send_message "r1" msgSendHi aliceU dbBase cmEmpty).2.1.messages
          = dbBase.messages ++ [m] ∧
        m.content = msgSendHi.content ∧ m.sender_id = aliceU.id ∧
        m.room_id = convert_property_room_id_to_uuid "r1" ∧
        m.is_deleted = false ∧
        ∃ l, (get_chat_messages "r1" bobU 0 50
            (send_message "r1" msgSendHi aliceU dbBase cmEmpty).2.1).1
            = .ok l ∧
          l.head? = some (mkMessageView
            (send_message "r1" msgSendHi aliceU dbBase cmEmpty).2.1 m)) :=
  ⟨⟨by rfl, by decide, by rfl⟩,
   send_message_durable_row "r1" msgSendHi aliceU bobU dbBase cmEmpty
     roomR1 partBobR1 (by rfl) (by rfl) (by decide) (by rfl)⟩

/-! ### C10 — global fan-out of message events -/

/-- With no failing channel, the `broadcast_to_all` loop raises nothing,
leaves the registry untouched, and delivers to every iterated entry except
the excluded one. -/
theorem broadcastToAllGo_healthy (etype content : String)
    (rid : Option String) (exclude : Option String) :
    ∀ (entries conns : List (String × Channel)),
      (∀ e ∈ entries, e.2.sendFails = false) →
      (broadcastToAllGo etype content rid exclude entries conns false).1
          = none ∧
        (broadcastToAllGo etype content rid exclude entries conns
            false).2.1 = conns ∧
        ∀ w ch, (w, ch) ∈ entries → (some w == exclude) = false →
          (⟨w, etype, content, rid⟩ : Event)
            ∈ (broadcastToAllGo etype content rid exclude entries conns
                false).2.2 := by
  intro entries
  induction entries with
  | nil =>
      intro conns _
      exact ⟨rfl, rfl, by intro w ch hm; cases hm⟩
  | cons e rest ih =>
      intro conns h
      obtain ⟨u, ch⟩ := e
      have hch : ch.sendFails = false := h (u, ch) (List.mem_cons_self _ _)
      have hrest : ∀ e ∈ rest, e.2.sendFails = false :=
        fun e he => h e (List.mem_cons_of_mem _ he)
      obtain ⟨ih1, ih2, ih3⟩ := ih conns hrest
      by_cases hex : (some u == exclude) = true
      · simp only [broadcastToAllGo, Bool.false_eq_true, if_false, hex,
          if_true]
        refine ⟨ih1, ih2, ?_⟩
        intro w ch' hm hwex
        rcases List.mem_cons.mp hm with hEq | hm'
        · cases hEq
          rw [hex] at hwex
          cases hwex
        · exact ih3 w ch' hm' hwex
      · have hex' : (some u == exclude) = false := by
          cases hx : (some u == exclude) with
          | false => rfl
          | true => exact absurd hx hex
        simp only [broadcastToAllGo, Bool.false_eq_true, if_false, hex',
          hch]
        refine ⟨ih1, ih2, ?_⟩
        intro w ch' hm hwex
        rcases List.mem_cons.mp hm with hEq | hm'
        · cases hEq
          exact List.mem_cons_self _ _
        · exact List.mem_cons_of_mem _ (ih3 w ch' hm' hwex)

/-- With no failing channel, the room broadcast loop raises nothing. -/
theorem broadcastToRoomGo_none (cm : ConnectionManager)
    (etype content : String) (rid : Option String)
    (exclude : Option String)
    (h : ∀ e ∈ cm.active_connections, e.2.sendFails = false) :
    ∀ users, (broadcastToRoomGo cm etype content rid exclude users).1
      = none := by
  intro users
  induction users with
  | nil => rfl
  | cons w rest ih =>
      simp only [broadcastToRoomGo]
      by_cases hex : (some w == exclude) = true
      · simp only [hex, if_true]
        exact ih
      · have hex' : (some w == exclude) = false := by
          cases hx : (some w == exclude) with
          | false => rfl
          | true => exact absurd hx hex
        simp only [hex', Bool.false_eq_true, if_false]
        cases hf : cm.active_connections.find? (fun e => e.1 == w) with
        | none =>
            simp only [hf]
            exact ih
        | some e =>
            simp only [hf]
            have he : e.2.sendFails = false :=
              h e (List.mem_of_find?_eq_some hf)
            simp only [he, Bool.false_eq_true, if_false]
            exact ih

/-- With no failing channel, `broadcast_to_room` raises nothing. -/
theorem broadcast_to_room_none (cm : ConnectionManager)
    (etype content room_id : String) (exclude : Option String)
    (h : ∀ e ∈ cm.active_connections, e.2.sendFails = false) :
    (broadcast_to_room cm etype content room_id exclude).1 = none := by
  unfold broadcast_to_room
  cases hf : cm.room_connections.find? (fun e => e.1 == room_id) with
  | none => simp [hf]
  | some e =>
      obtain ⟨rid2, users⟩ := e
      simp only [hf]
      exact broadcastToRoomGo_none cm etype content (some room_id)
        exclude h users

/-- With no failing channel, `send_personal_message` raises nothing. -/
theorem send_personal_message_none (cm : ConnectionManager)
    (etype content : String) (rid : Option String) (u : String)
    (h : ∀ e ∈ cm.active_connections, e.2.sendFails = false) :
    (send_personal_message cm etype content rid u).1 = none := by
  unfold send_personal_message
  cases hf : cm.active_connections.find? (fun e => e.1 == u) with
  | none => simp [hf]
  | some e =>
      simp only [hf]
      have he : e.2.sendFails = false := h e (List.mem_of_find?_eq_some hf)
      simp [he]

/-- With no failing channel, the notification loop raises nothing. -/
theorem notifyLoop_none (cm : ConnectionManager)
    (room_id content : String)
    (h : ∀ e ∈ cm.active_connections, e.2.sendFails = false) :
    ∀ users, (notifyLoop cm room_id content users).1 = none := by
  intro users
  induction users with
  | nil => rfl
  | cons w rest ih =>
      simp only [notifyLoop]
      rw [send_personal_message_none cm "notification" content
        (some room_id) w h]
      exact ih

/-- With no failing channel, `broadcast_to_all` raises nothing and
delivers the event to every connected user except the excluded one. -/
theorem broadcast_to_all_healthy (cm : ConnectionManager)
    (etype content : String) (rid exclude : Option String)
    (h : ∀ e ∈ cm.active_connections, e.2.sendFails = false) :
    (broadcast_to_all cm etype content rid exclude).1 = none ∧
      (broadcast_to_all cm etype content rid
          exclude).2.1.active_connections = cm.active_connections ∧
      ∀ w ch, (w, ch) ∈ cm.active_connections →
        (some w == exclude) = false →
        (⟨w, etype, content, rid⟩ : Event)
          ∈ (broadcast_to_all cm etype content rid exclude).2.2 := by
  obtain ⟨h1, h2, h3⟩ := broadcastToAllGo_healthy etype content rid
    exclude cm.active_connections cm.active_connections h
  exact ⟨h1, h2, h3⟩

/-- C10: after a successful `send_message` to a room, with every live
channel healthy, the gateway delivers the full message event (content
included) to every currently-connected user except the sender — with no
requirement that the recipient be a participant of the room or subscribed
to its live channel.  Stated for a `property`-kind room reached by its
canonical identifier. -/
theorem send_message_message_event_to_all_connected (room_id : String)
    (msg : ChatMessageSend) (u : UserRec) (db : DB)
    (cm : ConnectionManager) (room : ChatRoomRec)
    (h1 : pyStartsWith "property_".data room_id.data = false)
    (h2 : pyStartsWith "temp_".data room_id.data = false)
    (hfind : db.rooms.find? (fun r => r.id == room_id) = some room)
    (hrt : room.room_type = "property")
    (hok : ∀ e ∈ cm.active_connections, e.2.sendFails = false) :
    ∀ w ch, (w, ch) ∈ cm.active_connections → w ≠ u.id →
      (⟨w, "message", msg.content, some room_id⟩ : Event)
        ∈ (send_message room_id msg u db cm).2.2.2 := by
  intro w ch hw hwne
  have hconv := convert_of_no_prefix room_id h1 h2
  have hres : send_message_resolve room_id u db cm
      = (.ok room, db, cm, []) := by
    unfold send_message_resolve
    simp only [hconv, hfind, h1, h2, Bool.false_eq_true, if_false]
  have hauth : (room.room_type == "property" ||
      (findActiveParticipant db (convert_property_room_id_to_uuid room_id)
        u.id).isSome) = true := by
    simp [hrt]
  rw [send_message_eq_deliver room_id msg u db cm room db cm [] hres hauth]
  simp only [send_message_deliver, hconv]
  rw [broadcast_to_room_none cm "message" msg.content room_id (some u.id)
    hok]
  obtain ⟨ha1, ha2, ha3⟩ := broadcast_to_all_healthy cm "message"
    msg.content (some room_id) (some u.id) hok
  rw [ha1]
  have hok2 : ∀ e ∈ (broadcast_to_all cm "message" msg.content
      (some room_id) (some u.id)).2.1.active_connections,
      e.2.sendFails = false := by
    rw [ha2]; exact hok
  rw [notifyLoop_none _ _ _ hok2 _]
  have hwex : (some w == some u.id) = false := by
    cases hx : (some w == some u.id) with
    | false => rfl
    | true => exact absurd (Option.some.inj (eq_of_beq hx)) hwne
  have hmem := ha3 w ch hw hwex
  simp only [List.nil_append]
  exact List.mem_append_left _ (List.mem_append_right _ hmem)

/-- Gateway fixture for C10: Bob and Carol connected with healthy
channels, no room subscriptions. -/
def cmC10 : ConnectionManager :=
  { active_connections := [("bob", ⟨false⟩), ("carol", ⟨false⟩)]
    room_connections := [] }

/-- Witness for C10: Carol — connected, neither a participant of the
property room nor subscribed to it — still receives the full message
event when Alice sends into it. -/
theorem send_message_message_event_to_all_connected_witness :
    (pyStartsWith "property_".data "rp".data = false ∧
      dbProp.rooms.find? (fun r => r.id == "rp") = some roomProp ∧
      roomProp.room_type = "property" ∧
      ("carol", (⟨false⟩ : Channel)) ∈ cmC10.active_connections ∧
      "carol" ≠ aliceU.id) ∧
    (⟨"carol", "message", msgSendHi.content, some "rp"⟩ : Event)
      ∈ (send_message "rp" msgSendHi aliceU dbProp cmC10).2.2.2 :=
  ⟨⟨by decide, by rfl, rfl, by decide, by decide⟩,
   send_message_message_event_to_all_connected "rp" msgSendHi aliceU
     dbProp cmC10 roomProp (by decide) (by decide) (by rfl) rfl
     (by decide) "carol" ⟨false⟩ (by decide) (by decide)⟩

/-! ### C5 — the creating user's participant role (amended theorem)

The counterexample `synthetic_creation_creator_role_cex` above shows the
original claim false; the lemmas below settle the amended claim for every
room-creating operation: the explicit `create_chat_room` and all four
synthetic-resolution creation paths (`get_chat_room` and `send_message`,
each on `property_` and on `temp_` identifiers).
-/

/-- The participant-insertion loop only ever appends participant rows. -/
theorem createParticipantsLoop_participants_mono (rid cuid : String)
    (ids : List String) :
    ∀ db : DB, ∃ extra : List ChatParticipantRec,
      (createParticipantsLoop rid cuid db ids).1.participants
        = db.participants ++ extra := by
  induction ids with
  | nil => intro db; exact ⟨[], by simp [createParticipantsLoop]⟩
  | cons uid rest ih =>
      intro db
      unfold createParticipantsLoop
      cases hf : db.users.find? (fun w => w.id == uid) with
      | none => simpa using ih db
      | some w =>
          simp only [hf]
          obtain ⟨extra, hext⟩ := ih
            { db with
              participants := db.participants ++
                [{ id := genId db.nextId, room_id := rid, user_id := uid
                   role := if uid == cuid then "admin" else "member"
                   joined_at := db.now, last_read_at := none
                   is_active := true }]
              nextId := db.nextId + 1, now := db.now + 1 }
          refine ⟨{ id := genId db.nextId, room_id := rid, user_id := uid
                    role := if uid == cuid then "admin" else "member"
                    joined_at := db.now, last_read_at := none
                    is_active := true } :: extra, ?_⟩
          rw [hext]
          simp [List.append_assoc]

/-- When the creating user appears in `participant_ids` and exists in the
user table, the participant loop inserts an `admin` row for them
(chat.py line 284: the creator's own id gets role `admin`). -/
theorem createParticipantsLoop_mem_self (rid cuid : String)
    (ids : List String) :
    ∀ db : DB, cuid ∈ ids →
      (db.users.find? (fun w => w.id == cuid)).isSome = true →
      ∃ p ∈ (createParticipantsLoop rid cuid db ids).1.participants,
        p.room_id = rid ∧ p.user_id = cuid ∧ p.role = "admin" ∧
          p.is_active = true := by
  induction ids with
  | nil => intro db hm; cases hm
  | cons uid rest ih =>
      intro db hm hfind
      unfold createParticipantsLoop
      rcases List.mem_cons.mp hm with hEq | hm'
      · rw [hEq] at hfind
        cases hf : db.users.find? (fun w => w.id == uid) with
        | none => rw [hf] at hfind; simp at hfind
        | some w =>
            simp only [hf]
            obtain ⟨extra, hext⟩ :=
              createParticipantsLoop_participants_mono rid cuid rest
                { db with
                  participants := db.participants ++
                    [{ id := genId db.nextId, room_id := rid
                       user_id := uid
                       role := if uid == cuid then "admin" else "member"
                       joined_at := db.now, last_read_at := none
                       is_active := true }]
                  nextId := db.nextId + 1, now := db.now + 1 }
            refine ⟨{ id := genId db.nextId, room_id := rid, user_id := uid
                      role := if uid == cuid then "admin" else "member"
                      joined_at := db.now, last_read_at := none
                      is_active := true }, ?_, rfl, hEq.symm, ?_, rfl⟩
            · rw [hext]
              exact List.mem_append_left _
                (List.mem_append_right _ (List.mem_singleton_self _))
            · simp [← hEq]
      · cases hf : db.users.find? (fun w => w.id == uid) with
        | none =>
            simp only [hf]
            exact ih db hm' hfind
        | some w =>
            simp only [hf]
            exact ih
              { db with
                participants := db.participants ++
                  [{ id := genId db.nextId, room_id := rid, user_id := uid
                     role := if uid == cuid then "admin" else "member"
                     joined_at := db.now, last_read_at := none
                     is_active := true }]
                nextId := db.nextId + 1, now := db.now + 1 }
              hm' hfind

/-- The room-creation arm of `get_chat_room`'s synthetic resolution
yields a `property`-kind room whose creating user is a `member`
participant (chat.py lines 513-534 and 566-586). -/
theorem get_chat_room_resolve_member (actual pid : String) (u : UserRec)
    (db : DB) (pobj : PropertyRec)
    (hne : db.rooms.find? (fun r =>
      r.property_id == some pid && r.room_type == "property") = none)
    (hp : db.properties.find? (fun p => p.id == pid) = some pobj) :
    ∃ room db2,
      get_chat_room_resolve_property actual pid u db = .ok (room, db2) ∧
        room.room_type = "property" ∧
        ∃ p ∈ db2.participants, p.room_id = actual ∧ p.user_id = u.id ∧
          p.role = "member" ∧ p.is_active = true := by
  unfold get_chat_room_resolve_property
  simp only [hne, hp]
  exact ⟨_, _, rfl, rfl, _,
    List.mem_append_right _ (List.mem_singleton_self _),
    rfl, rfl, rfl, rfl⟩

/-- The room-creation arm of `send_message`'s synthetic resolution adds
the creating user as a `member` participant once the `room_created`
broadcast comes back without an exception (chat.py lines 894-902 and
963-971). -/
theorem send_message_resolve_property_creates_member (actual pid : String)
    (u : UserRec) (db : DB) (cm : ConnectionManager) (pobj : PropertyRec)
    (hne : db.rooms.find? (fun r =>
      r.property_id == some pid && r.room_type == "property") = none)
    (hp : db.properties.find? (fun p => p.id == pid) = some pobj)
    (hb : (broadcast_to_all cm "room_created" "" (some actual) none).1
      = none) :
    ∃ p ∈ (send_message_resolve_property actual pid u db
        cm).2.1.participants,
      p.room_id = actual ∧ p.user_id = u.id ∧ p.role = "member" ∧
        p.is_active = true := by
  unfold send_message_resolve_property
  simp only [hne, hp, hb]
  exact ⟨_, List.mem_append_right _ (List.mem_singleton_self _),
    rfl, rfl, rfl, rfl⟩

/-- `send_message` never changes the participant table beyond what its
room resolution already committed: the deliver tail appends only the
message row. -/
theorem send_message_participants_eq (room_id : String)
    (msg : ChatMessageSend) (u : UserRec) (db : DB)
    (cm : ConnectionManager) :
    (send_message room_id msg u db cm).2.1.participants
      = (send_message_resolve room_id u db cm).2.1.participants := by
  rcases hR : send_message_resolve room_id u db cm with ⟨res, db1, cm1, evs⟩
  unfold send_message
  rw [hR]
  cases res with
  | error e => rfl
  | ok room =>
      by_cases hrt : (room.room_type == "property") = true
      · simp only [hrt, if_true]
        rw [send_message_deliver_db]
      · have hrt' : (room.room_type == "property") = false := by
          cases hx : (room.room_type == "property") with
          | false => rfl
          | true => exact absurd hx hrt
        simp only [hrt', Bool.false_eq_true, if_false]
        cases hfa : findActiveParticipant db1
            (convert_property_room_id_to_uuid room_id) u.id with
        | none => simp only [hfa]
        | some pu =>
            simp only [hfa]
            rw [send_message_deliver_db]

/-- C5 amended: the explicit `create_room` adds the creating user as an
`admin` participant whenever it creates a room (whether or not a property
is linked, and whether the creator is listed in `participant_ids` — being
a registered user — or appended afterwards), while every
synthetic-identifier resolution path that creates a property room on
first use — `get_room` and `send_message`, on `property_` and on `temp_`
identifiers — adds the creating user with role `member`. -/
theorem room_creation_creator_role :
    (∀ (data : ChatRoomCreate) (u : UserRec) (db : DB)
        (cm : ConnectionManager),
      data.escrow_id = none →
      (data.property_id = none ∨
        ∃ P, data.property_id = some P ∧
          (db.properties.find? (fun p => p.id == P)).isSome = true ∧
          db.rooms.find?
            (fun r => r.property_id == some P && r.is_active) = none) →
      (data.participant_ids.contains u.id = false ∨
        (db.users.find? (fun w => w.id == u.id)).isSome = true) →
      ∃ p ∈ (create_chat_room data u db cm).2.1.participants,
        p.room_id = genId db.nextId ∧ p.user_id = u.id ∧
          p.role = "admin" ∧ p.is_active = true) ∧
    (∀ (room_id : String) (u : UserRec) (db : DB) (pobj : PropertyRec),
      pyStartsWith "property_".data room_id.data = true →
      db.rooms.find? (fun r =>
          r.id == convert_property_room_id_to_uuid room_id) = none →
      db.rooms.find? (fun r =>
          r.property_id ==
              some (String.mk (pyReplace "property_".data [] room_id.data))
            && r.room_type == "property") = none →
      db.properties.find? (fun p =>
          p.id == String.mk (pyReplace "property_".data [] room_id.data))
        = some pobj →
      ∃ p ∈ (get_chat_room room_id u db).2.participants,
        p.user_id = u.id ∧ p.role = "member" ∧ p.is_active = true) ∧
    (∀ (room_id : String) (u : UserRec) (db : DB) (pobj : PropertyRec)
        (a pid c : List Char) (rest : List (List Char)),
      pyStartsWith "property_".data room_id.data = false →
      pyStartsWith "temp_".data room_id.data = true →
      pySplit '_' room_id.data = a :: pid :: c :: rest →
      db.rooms.find? (fun r =>
          r.id == convert_property_room_id_to_uuid room_id) = none →
      db.rooms.find? (fun r =>
          r.property_id == some (String.mk pid) &&
            r.room_type == "property") = none →
      db.properties.find? (fun p => p.id == String.mk pid) = some pobj →
      ∃ p ∈ (get_chat_room room_id u db).2.participants,
        p.user_id = u.id ∧ p.role = "member" ∧ p.is_active = true) ∧
    (∀ (room_id : String) (msg : ChatMessageSend) (u : UserRec) (db : DB)
        (cm : ConnectionManager) (pobj : PropertyRec),
      pyStartsWith "property_".data room_id.data = true →
      db.rooms.find? (fun r =>
          r.id == convert_property_room_id_to_uuid room_id) = none →
      db.rooms.find? (fun r =>
          r.property_id ==
              some (String.mk (pyReplace "property_".data [] room_id.data))
            && r.room_type == "property") = none →
      db.properties.find? (fun p =>
          p.id == String.mk (pyReplace "property_".data [] room_id.data))
        = some pobj →
      (broadcast_to_all cm "room_created" ""
        (some (convert_property_room_id_to_uuid room_id)) none).1 = none →
      ∃ p ∈ (send_message room_id msg u db cm).2.1.participants,
        p.user_id = u.id ∧ p.role = "member" ∧ p.is_active = true) ∧
    (∀ (room_id : String) (msg : ChatMessageSend) (u : UserRec) (db : DB)
        (cm : ConnectionManager) (pobj : PropertyRec)
        (a pid c : List Char) (rest : List (List Char)),
      pyStartsWith "property_".data room_id.data = false →
      pyStartsWith "temp_".data room_id.data = true →
      pySplit '_' room_id.data = a :: pid :: c :: rest →
      db.rooms.find? (fun r =>
          r.id == convert_property_room_id_to_uuid room_id) = none →
      db.rooms.find? (fun r =>
          r.property_id == some (String.mk pid) &&
            r.room_type == "property") = none →
      db.properties.find? (fun p => p.id == String.mk pid) = some pobj →
      (broadcast_to_all cm "room_created" ""
        (some (convert_property_room_id_to_uuid room_id)) none).1 = none →
      ∃ p ∈ (send_message room_id msg u db cm).2.1.participants,
        p.user_id = u.id ∧ p.role = "member" ∧ p.is_active = true) := by
  refine ⟨?_, ?_, ?_, ?_, ?_⟩
  · -- explicit create_room: creator ends up admin on every fresh path
    intro data u db cm hesc hprop hins
    have hfresh : ∃ pid, create_chat_room data u db cm
        = create_chat_room_fresh data pid none u db cm := by
      rcases hprop with hnone | ⟨P, hP, hv, hnr⟩
      · exact ⟨none, by
          simp only [create_chat_room, hnone, create_chat_room_escrow,
            hesc]⟩
      · refine ⟨some P, ?_⟩
        have hv' : (db.properties.find? (fun p => p.id == P)).isNone
            = false := by
          cases hx : db.properties.find? (fun p => p.id == P) with
          | none => rw [hx] at hv; simp at hv
          | some _ => rfl
        unfold create_chat_room
        simp only [hP, hv', Bool.false_eq_true, if_false, hnr,
          create_chat_room_escrow, hesc]
    obtain ⟨pid, hfr⟩ := hfresh
    rw [hfr]
    rcases hins with hni | hiu
    · unfold create_chat_room_fresh
      simp only [hni, Bool.false_eq_true, if_false]
      exact ⟨_, List.mem_append_right _ (List.mem_singleton_self _),
        rfl, rfl, rfl, rfl⟩
    · by_cases hc : data.participant_ids.contains u.id = true
      · unfold create_chat_room_fresh
        simp only [hc, if_true]
        have hcu : u.id ∈ data.participant_ids := List.elem_iff.mp hc
        exact createParticipantsLoop_mem_self _ _ _ _ hcu hiu
      · have hc' : data.participant_ids.contains u.id = false := by
          cases hx : data.participant_ids.contains u.id with
          | false => rfl
          | true => exact absurd hx hc
        unfold create_chat_room_fresh
        simp only [hc', Bool.false_eq_true, if_false]
        exact ⟨_, List.mem_append_right _ (List.mem_singleton_self _),
          rfl, rfl, rfl, rfl⟩
  · -- get_room on a property_ identifier
    intro room_id u db pobj h1 hnf hne hp
    unfold get_chat_room
    simp only [hnf, h1, if_true]
    obtain ⟨room, db2, hok, hrt, p, hpmem, hrm, hu, hrole, hact⟩ :=
      get_chat_room_resolve_member
        (convert_property_room_id_to_uuid room_id)
        (String.mk (pyReplace "property_".data [] room_id.data)) u db
        pobj hne hp
    rw [hok]
    unfold get_chat_room_checked
    simp only [hrt, beq_self_eq_true, if_true]
    exact ⟨p, hpmem, hu, hrole, hact⟩
  · -- get_room on a temp_ identifier
    intro room_id u db pobj a pid c rest h1 h2 hsplit hnf hne hp
    unfold get_chat_room
    simp only [hnf, h1, Bool.false_eq_true, if_false, h2, if_true, hsplit]
    obtain ⟨room, db2, hok, hrt, p, hpmem, hrm, hu, hrole, hact⟩ :=
      get_chat_room_resolve_member
        (convert_property_room_id_to_uuid room_id) (String.mk pid) u db
        pobj hne hp
    rw [hok]
    unfold get_chat_room_checked
    simp only [hrt, beq_self_eq_true, if_true]
    exact ⟨p, hpmem, hu, hrole, hact⟩
  · -- send_message on a property_ identifier
    intro room_id msg u db cm pobj h1 hnf hne hp hb
    rw [send_message_participants_eq]
    unfold send_message_resolve
    simp only [hnf, h1, if_true]
    obtain ⟨p, hpmem, hrm, hu, hrole, hact⟩ :=
      send_message_resolve_property_creates_member
        (convert_property_room_id_to_uuid room_id)
        (String.mk (pyReplace "property_".data [] room_id.data)) u db cm
        pobj hne hp hb
    exact ⟨p, hpmem, hu, hrole, hact⟩
  · -- send_message on a temp_ identifier
    intro room_id msg u db cm pobj a pid c rest h1 h2 hsplit hnf hne hp hb
    rw [send_message_participants_eq]
    unfold send_message_resolve
    simp only [hnf, h1, Bool.false_eq_true, if_false, h2, if_true, hsplit]
    obtain ⟨p, hpmem, hrm, hu, hrole, hact⟩ :=
      send_message_resolve_property_creates_member
        (convert_property_room_id_to_uuid room_id) (String.mk pid) u db
        cm pobj hne hp hb
    exact ⟨p, hpmem, hu, hrole, hact⟩

/-- Witness for C5's amended theorem: explicit creation yields an `admin`
creator row, while all four synthetic creation paths — `get_room` and
`send_message` on `property_p1` and on `temp_p1_123` against the
room-less fixture — yield a `member` creator row. -/
theorem room_creation_creator_role_witness :
    (∃ p ∈ (create_chat_room
        { name := some "Group", room_type := "group", property_id := none
          escrow_id := none, participant_ids := ["bob"] }
        aliceU dbBase cmEmpty).2.1.participants,
      p.room_id = genId dbBase.nextId ∧ p.user_id = aliceU.id ∧
        p.role = "admin" ∧ p.is_active = true) ∧
    (∃ p ∈ (get_chat_room "property_p1" aliceU dbNoRooms).2.participants,
      p.user_id = aliceU.id ∧ p.role = "member" ∧ p.is_active = true) ∧
    (∃ p ∈ (get_chat_room "temp_p1_123" aliceU dbNoRooms).2.participants,
      p.user_id = aliceU.id ∧ p.role = "member" ∧ p.is_active = true) ∧
    (∃ p ∈ (send_message "property_p1" msgSendHi aliceU dbNoRooms
        cmEmpty).2.1.participants,
      p.user_id = aliceU.id ∧ p.role = "member" ∧ p.is_active = true) ∧
    (∃ p ∈ (send_message "temp_p1_123" msgSendHi aliceU dbNoRooms
        cmEmpty).2.1.participants,
      p.user_id = aliceU.id ∧ p.role = "member" ∧ p.is_active = true) :=
  ⟨room_creation_creator_role.1
      { name := some "Group", room_type := "group", property_id := none
        escrow_id := none, participant_ids := ["bob"] }
      aliceU dbBase cmEmpty rfl (Or.inl rfl) (Or.inl (by decide)),
   room_creation_creator_role.2.1 "property_p1" aliceU dbNoRooms propP1
     (by decide) (by rfl) (by rfl) (by rfl),
   room_creation_creator_role.2.2.1 "temp_p1_123" aliceU dbNoRooms propP1
     "temp".data "p1".data "123".data [] (by decide) (by decide) (by rfl)
     (by rfl) (by rfl) (by rfl),
   room_creation_creator_role.2.2.2.1 "property_p1" msgSendHi aliceU
     dbNoRooms cmEmpty propP1 (by decide) (by rfl) (by rfl) (by rfl)
     (by rfl),
   room_creation_creator_role.2.2.2.2 "temp_p1_123" msgSendHi aliceU
     dbNoRooms cmEmpty propP1 "temp".data "p1".data "123".data []
     (by decide) (by decide) (by rfl) (by rfl) (by rfl) (by rfl)
     (by rfl)⟩

end FindlandChat
